import Mathlib

/-!
Shallow embedding of the CFB/OLE `.msg` decoder in `src/modules/msgreader.js`
(the DataStream byte cursor and the MSGReader parser), together with proofs
about the claims of the specification.

Modelling conventions:
* a JS `ArrayBuffer` is a `List Nat` of bytes (each `< 256`; reads reduce
  modulo 256 so that arbitrary lists still denote byte buffers);
* a JS string is its list of UTF-16 code units (`String.fromCharCode` turns
  a 16-bit unit into one character, so `readString`/`readUCS2String` are
  unit-list producers);
* reads beyond the end of the buffer throw a `RangeError` in JS; the
  embedding returns the byte 0 there, and every theorem whose content
  depends on in-range reads carries an explicit bounds hypothesis;
* a JS array access `a[i]` with `i` out of range yields `undefined`; where
  the source feeds such a value onward the embedding uses the stated
  default (documented at each site);
* the unbounded `while` loops of the source (`propertyData`,
  `getChainByBlockSmall`, `createPropertyHierarchy`, the recursive field
  walk) are embedded with an explicit fuel argument and return `none` when
  the fuel is exhausted, so that `∃ fuel, (… fuel …).isSome` expresses
  termination of the corresponding JS loop;
* `Math.floor (a / b)` is `Int.fdiv`, the JS `%` operator is `Int.tmod`,
  and JS integer truncation (`ToIndex`) is `Int.tdiv` / `Int.toNat`.
-/

set_option maxRecDepth 1000000

namespace MsgReader

/-- Bytes of a JS `ArrayBuffer`. -/
abbrev Buffer := List Nat

/-- A JS string, as its list of UTF-16 code units. -/
abbrev JSStr := List Nat

/-- Code units of a Lean string literal (used for the ASCII constants of the
source such as the directory-name markers and the hex field codes). -/
def strU (s : String) : JSStr := s.data.map Char.toNat

/-- Two's-complement reinterpretation of the low `w` bits of `n`, as the
`DataView.getInt8/16/32` accessors produce. -/
def toSigned (w : Nat) (n : Nat) : Int :=
  if n % 2 ^ w < 2 ^ (w - 1) then ((n % 2 ^ w : Nat) : Int)
  else ((n % 2 ^ w : Nat) : Int) - ((2 ^ w : Nat) : Int)

/-- Byte at (integer) position `i` of the buffer; 0 outside the buffer
(JS would throw a `RangeError` there, see the module conventions). -/
def byteAt (buf : Buffer) (i : Int) : Nat :=
  if i < 0 then 0 else (buf.getD i.toNat 0) % 256

/-- Little-endian unsigned 16-bit read (`DataView.getUint16`). -/
def getUint16LE (buf : Buffer) (p : Int) : Nat :=
  byteAt buf p + 256 * byteAt buf (p + 1)

/-- Little-endian unsigned 32-bit read (`DataView.getUint32`). -/
def getUint32LE (buf : Buffer) (p : Int) : Nat :=
  byteAt buf p + 256 * byteAt buf (p + 1) + 65536 * byteAt buf (p + 2) +
    16777216 * byteAt buf (p + 3)

/-- Signed 8-bit read (`DataView.getInt8`). -/
def getInt8 (buf : Buffer) (p : Int) : Int := toSigned 8 (byteAt buf p)

/-- Signed little-endian 16-bit read (`DataView.getInt16`). -/
def getInt16LE (buf : Buffer) (p : Int) : Int := toSigned 16 (getUint16LE buf p)

/-- Signed little-endian 32-bit read (`DataView.getInt32`). -/
def getInt32LE (buf : Buffer) (p : Int) : Int := toSigned 32 (getUint32LE buf p)

/-- Clamping of `DataStream.prototype.seek` for an integer argument:
`Math.max(0, Math.min(byteLength, pos))` (the NaN/non-finite branch of
`seek` is modelled separately by `seekJS` for claim C9; every internal call
of the parser passes an integer). -/
def seekPos (len : Nat) (pos : Int) : Nat := (max 0 (min (len : Int) pos)).toNat

/-- `DataStream.prototype.readByte`: seek to `offset`, then `readInt8`. -/
def dsReadByte (buf : Buffer) (offset : Int) : Int :=
  getInt8 buf (seekPos buf.length offset)

/-- `DataStream.prototype.readShort`: seek to `offset`, then `readInt16`
(little-endian). -/
def dsReadShort (buf : Buffer) (offset : Int) : Int :=
  getInt16LE buf (seekPos buf.length offset)

/-- `DataStream.prototype.readInt`: seek to `offset`, then `readInt32`
(little-endian). -/
def dsReadInt (buf : Buffer) (offset : Int) : Int :=
  getInt32LE buf (seekPos buf.length offset)

/-- `DataStream.prototype.readInt8Array` at a given position: `n` signed
bytes. -/
def readInt8ArrayAt (buf : Buffer) (pos : Int) (n : Nat) : List Int :=
  (List.range n).map fun (i : Nat) => getInt8 buf (pos + (i : Int))

/-- `DataStream.prototype.readInt32Array` at a given position: `n` signed
little-endian 32-bit integers. -/
def readInt32ArrayAt (buf : Buffer) (pos : Int) (n : Nat) : List Int :=
  (List.range n).map fun (i : Nat) => getInt32LE buf (pos + 4 * (i : Int))

/-- `DataStream.prototype.readUint8Array` at a given position: `n` bytes. -/
def readUint8ArrayAt (buf : Buffer) (pos : Int) (n : Nat) : List Nat :=
  (List.range n).map fun (i : Nat) => byteAt buf (pos + (i : Int))

/-- `DataStream.prototype.readUint16Array` at a given position: `n`
little-endian 16-bit units. -/
def readUint16ArrayAt (buf : Buffer) (pos : Int) (n : Nat) : List Nat :=
  (List.range n).map fun (i : Nat) => getUint16LE buf (pos + 2 * (i : Int))

/-- `DataStream.prototype.readString` with the default ASCII encoding:
`createStringFromArray(mapUint8Array(length))`, i.e. each byte becomes the
code unit of one character. -/
def readStringAscii (buf : Buffer) (pos : Int) (n : Nat) : JSStr :=
  readUint8ArrayAt buf pos n

/-- `DataStream.prototype.readUCS2String` at a given position:
`createStringFromArray(readUint16Array(length))`. -/
def readUCS2StringAt (buf : Buffer) (pos : Int) (n : Nat) : JSStr :=
  readUint16ArrayAt buf pos n

/-! Constants of the `CONST` table of the source. -/

def UNUSED_BLOCK : Int := -1
def END_OF_CHAIN : Int := -2
def S_BIG_BLOCK_SIZE : Nat := 0x0200
def S_BIG_BLOCK_MARK : Int := 9
def L_BIG_BLOCK_SIZE : Nat := 0x1000
def L_BIG_BLOCK_MARK : Int := 12
def SMALL_BLOCK_SIZE : Nat := 0x0040
def BIG_BLOCK_MIN_DOC_SIZE : Int := 0x1000
def PROPERTY_START_OFFSET : Nat := 0x30
def BAT_START_OFFSET : Nat := 0x4c
def BAT_COUNT_OFFSET : Nat := 0x2c
def SBAT_START_OFFSET : Nat := 0x3c
def SBAT_COUNT_OFFSET : Nat := 0x40
def XBAT_START_OFFSET : Nat := 0x44
def XBAT_COUNT_OFFSET : Nat := 0x48
def PROP_NO_INDEX : Int := -1
def PROPERTY_SIZE : Nat := 0x0080
def NAME_SIZE_OFFSET : Nat := 0x40
def TYPE_OFFSET : Nat := 0x42
def PREVIOUS_PROPERTY_OFFSET : Nat := 0x44
def NEXT_PROPERTY_OFFSET : Nat := 0x48
def CHILD_PROPERTY_OFFSET : Nat := 0x4c
def START_BLOCK_OFFSET : Nat := 0x74
def SIZE_OFFSET : Nat := 0x78
def TYPE_DIRECTORY : Int := 1
def TYPE_DOCUMENT : Int := 2
def TYPE_ROOT : Int := 5

/-- `uInt2int` of the source: `(x << 24) >> 24`, i.e. signed 8-bit
reinterpretation of each element. -/
def uInt2int (data : List Nat) : List Int := data.map fun x => toSigned 8 x

/-- The raw CFB signature bytes `D0 CF 11 E0 A1 B1 1A E1`. -/
def sigBytes : List Nat := [0xd0, 0xcf, 0x11, 0xe0, 0xa1, 0xb1, 0x1a, 0xe1]

/-- `CONST.FILE_HEADER`: the signature bytes passed through `uInt2int`. -/
def FILE_HEADER : List Int := uInt2int sigBytes

/-- `isMSGFile`: seek to 0 and compare the first 8 signed bytes with
`CONST.FILE_HEADER` (`arraysEqual` is element-wise equality). -/
def isMSGFile (buf : Buffer) : Bool :=
  FILE_HEADER == readInt8ArrayAt buf 0 FILE_HEADER.length

/-! Data model of the parser. -/

/-- One decoded 128-byte directory slot (`convertProperty`).  `children` is
absent until `createPropertyHierarchy` assigns it. -/
structure Property where
  index : Nat
  type : Int
  name : JSStr
  previousProperty : Int
  nextProperty : Int
  childProperty : Int
  startBlock : Int
  sizeBlock : Int
  children : Option (List Int) := none
deriving Repr, DecidableEq

/-- A JS field value as produced by the extractors: a string (code units),
a `Uint8Array` (bytes), a number, or `null`. -/
inductive Value where
  | str (units : JSStr)
  | bytes (data : List Nat)
  | num (n : Int)
  | null
deriving Repr, DecidableEq

/-- A field record object of `fieldsData`: a key/value map plus the
`attachments`/`recipients` arrays (absent on the inner records, which the
source creates as plain `{}`) and the `innerMsgContent` flag. -/
inductive FieldObj where
  | mk (map : List (String × Value)) (attachments : Option (List FieldObj))
      (recipients : Option (List FieldObj)) (innerMsgContent : Bool)

def FieldObj.map : FieldObj → List (String × Value)
  | .mk m _ _ _ => m

def FieldObj.attachments : FieldObj → Option (List FieldObj)
  | .mk _ a _ _ => a

def FieldObj.recipients : FieldObj → Option (List FieldObj)
  | .mk _ _ r _ => r

def FieldObj.innerMsgContent : FieldObj → Bool
  | .mk _ _ _ i => i

/-- A fresh `{}` record of the source. -/
def emptyFieldObj : FieldObj := .mk [] none none false

/-- The initial `fields` object of `fieldsData`:
`{ attachments: [], recipients: [] }`. -/
def initialFields : FieldObj := .mk [] (some []) (some []) false

/-- JS object property update `m[k] = v` on an association list. -/
def setAssoc : List (String × Value) → String → Value → List (String × Value)
  | [], k, v => [(k, v)]
  | (k', v') :: t, k, v =>
      if k' = k then (k, v) :: t else (k', v') :: setAssoc t k v

/-- JS object property lookup `m[k]` on an association list. -/
def getAssoc : List (String × Value) → String → Option Value
  | [], _ => none
  | (k', v') :: t, k => if k' = k then some v' else getAssoc t k

/-- Field assignment `fields[k] = v` on a record object. -/
def setField (f : FieldObj) (k : String) (v : Value) : FieldObj :=
  match f with
  | .mk m a r i => .mk (setAssoc m k v) a r i

/-- The parser state object `msgData` (header fields plus the derived
tables; `fieldsData` is attached at the end of `parseMsgData`). -/
structure MsgData where
  bigBlockSize : Nat := 512
  bigBlockLength : Nat := 128
  xBlockLength : Nat := 127
  batCount : Int := 0
  propertyStart : Int := 0
  sbatStart : Int := 0
  sbatCount : Int := 0
  xbatStart : Int := 0
  xbatCount : Int := 0
  batData : List Int := []
  sbatData : List Int := []
  propertyData : List (Option Property) := []
  fieldsData : FieldObj := initialFields

/-- `headerData`: block-size class marker byte at position 30 (value 12
means 4096-byte blocks, anything else 512), then the six 4-byte header
fields at their fixed offsets, and the two derived lengths. -/
def headerData (buf : Buffer) : MsgData :=
  let bigBlockSize :=
    if dsReadByte buf 30 = L_BIG_BLOCK_MARK then L_BIG_BLOCK_SIZE else S_BIG_BLOCK_SIZE
  { bigBlockSize := bigBlockSize
    bigBlockLength := bigBlockSize / 4
    xBlockLength := bigBlockSize / 4 - 1
    batCount := dsReadInt buf (BAT_COUNT_OFFSET : Nat)
    propertyStart := dsReadInt buf (PROPERTY_START_OFFSET : Nat)
    sbatStart := dsReadInt buf (SBAT_START_OFFSET : Nat)
    sbatCount := dsReadInt buf (SBAT_COUNT_OFFSET : Nat)
    xbatStart := dsReadInt buf (XBAT_START_OFFSET : Nat)
    xbatCount := dsReadInt buf (XBAT_COUNT_OFFSET : Nat) }

/-- `batCountInHeader`: `min(batCount, (512 - 0x4C) / 4)`. -/
def batCountInHeader (msg : MsgData) : Int :=
  min msg.batCount (((S_BIG_BLOCK_SIZE - BAT_START_OFFSET) / 4 : Nat) : Int)

/-- `batData`: that many consecutive 32-bit entries starting at header
offset `0x4C` (a negative count would make `new Array` throw in JS; the
embedding yields the empty list there). -/
def batData (buf : Buffer) (msg : MsgData) : List Int :=
  (List.range (batCountInHeader msg).toNat).map fun (i : Nat) =>
    getInt32LE buf ((BAT_START_OFFSET : Int) + 4 * (i : Int))

/-- `getBlockOffsetAt`: physical byte offset of block `offset`. -/
def getBlockOffsetAt (msg : MsgData) (offset : Int) : Int :=
  (offset + 1) * msg.bigBlockSize

/-- `getBlockAt`: seek to the block's offset and read its
`bigBlockLength` 32-bit slots. -/
def getBlockAt (buf : Buffer) (msg : MsgData) (offset : Int) : List Int :=
  readInt32ArrayAt buf (seekPos buf.length (getBlockOffsetAt msg offset)) msg.bigBlockLength

/-- `getNextBlockInner`: locate the table block that holds the slot of
logical offset `offset` and read that slot.  A JS out-of-range table access
yields `undefined`, which `getBlockOffsetAt` turns into a seek to 0; the
embedding uses the default `-1` (whose block offset is 0) for the table
entry and 0 for a slot index that is out of range. -/
def getNextBlockInner (buf : Buffer) (msg : MsgData) (offset : Int)
    (blockOffsetData : List Int) : Int :=
  let currentBlock := Int.fdiv offset (msg.bigBlockLength : Int)
  let currentBlockIndex := Int.tmod offset (msg.bigBlockLength : Int)
  let startBlockOffset :=
    if 0 ≤ currentBlock then blockOffsetData.getD currentBlock.toNat (-1) else (-1)
  let idx := if 0 ≤ currentBlockIndex then currentBlockIndex.toNat else 0
  (getBlockAt buf msg startBlockOffset).getD idx 0

/-- `getNextBlock`: chain step through the big-block allocation table. -/
def getNextBlock (buf : Buffer) (msg : MsgData) (offset : Int) : Int :=
  getNextBlockInner buf msg offset msg.batData

/-- `getNextBlockSmall`: chain step through the small-block allocation
table. -/
def getNextBlockSmall (buf : Buffer) (msg : MsgData) (offset : Int) : Int :=
  getNextBlockInner buf msg offset msg.sbatData

/-- Loop of `sbatData`: `for (i = 0; i < sbatCount && start != END_OF_CHAIN; i++)`. -/
def sbatDataLoop (buf : Buffer) (msg : MsgData) : Nat → Int → List Int
  | 0, _ => []
  | Nat.succ n, startIndex =>
      if startIndex = END_OF_CHAIN then []
      else startIndex :: sbatDataLoop buf msg n (getNextBlock buf msg startIndex)

/-- `sbatData`: follow the BAT-governed chain from `sbatStart` for at most
`sbatCount` steps, stopping at the end-of-chain sentinel. -/
def sbatData (buf : Buffer) (msg : MsgData) : List Int :=
  sbatDataLoop buf msg msg.sbatCount.toNat msg.sbatStart

/-- Inner loop of `xbatData`: up to `k` entries of the XBAT block starting
at slot `j`, stopping early at an unused or end-of-chain sentinel. -/
def xbatEntriesLoop (blk : List Int) : Nat → Nat → List Int
  | 0, _ => []
  | Nat.succ n, j =>
      let e := blk.getD j 0
      if e = UNUSED_BLOCK ∨ e = END_OF_CHAIN then []
      else e :: xbatEntriesLoop blk n (j + 1)

/-- Outer loop of `xbatData`: exactly `count` XBAT blocks, following the
pointer in slot `xBlockLength` of each, processing
`min(remainingBlocks, xBlockLength)` entries per block and appending them
to the accumulated `batData`. -/
def xbatLoop (buf : Buffer) (msg : MsgData) :
    Nat → Int → Int → List Int → List Int
  | 0, _, _, bat => bat
  | Nat.succ n, nextBlockAt, remainingBlocks, bat =>
      let xBatBlock := getBlockAt buf msg nextBlockAt
      let nextAt := xBatBlock.getD msg.xBlockLength 0
      let blocksToProcess := min remainingBlocks (msg.xBlockLength : Int)
      let entries := xbatEntriesLoop xBatBlock blocksToProcess.toNat 0
      xbatLoop buf msg n nextAt (remainingBlocks - blocksToProcess) (bat ++ entries)

/-- `xbatData`: extend `msgData.batData` with the entries recovered from
the `xbatCount` XBAT blocks. -/
def xbatData (buf : Buffer) (msg : MsgData) : MsgData :=
  { msg with
    batData :=
      xbatLoop buf msg msg.xbatCount.toNat msg.xbatStart
        (msg.batCount - batCountInHeader msg) msg.batData }

/-- `convertName`: the name length (signed 16-bit) at slot offset `0x40`,
then `readStringAt(offset, nameLength / 2)` (seek to the slot and read that
many UTF-16 units; JS truncates the fractional length). -/
def convertName (buf : Buffer) (offset : Int) : JSStr :=
  let nameLength := dsReadShort buf (offset + (NAME_SIZE_OFFSET : Nat))
  if nameLength < 1 then []
  else readUCS2StringAt buf (seekPos buf.length offset) (Int.tdiv nameLength 2).toNat

/-- `convertProperty`: decode one 128-byte directory slot. -/
def convertProperty (buf : Buffer) (index : Nat) (offset : Int) : Property :=
  { index := index
    type := dsReadByte buf (offset + (TYPE_OFFSET : Nat))
    name := convertName buf offset
    previousProperty := dsReadInt buf (offset + (PREVIOUS_PROPERTY_OFFSET : Nat))
    nextProperty := dsReadInt buf (offset + (NEXT_PROPERTY_OFFSET : Nat))
    childProperty := dsReadInt buf (offset + (CHILD_PROPERTY_OFFSET : Nat))
    startBlock := dsReadInt buf (offset + (START_BLOCK_OFFSET : Nat))
    sizeBlock := dsReadInt buf (offset + (SIZE_OFFSET : Nat)) }

/-- Slot loop of `convertBlockToProperties`: for each 128-byte slot, decode
a property if the type tag is Root/Directory/Document, else push a hole. -/
def cbtpLoop (buf : Buffer) : Nat → Int → List (Option Property) → List (Option Property)
  | 0, _, props => props
  | Nat.succ n, propertyOffset, props =>
      let propertyType := dsReadByte buf (propertyOffset + (TYPE_OFFSET : Nat))
      let props' :=
        if propertyType = TYPE_ROOT ∨ propertyType = TYPE_DIRECTORY ∨
            propertyType = TYPE_DOCUMENT then
          props ++ [some (convertProperty buf props.length propertyOffset)]
        else props ++ [none]
      cbtpLoop buf n (propertyOffset + (PROPERTY_SIZE : Nat)) props'

/-- `convertBlockToProperties`: the `bigBlockSize / 128` slots of one
property block. -/
def convertBlockToProperties (buf : Buffer) (msg : MsgData)
    (propertyBlockOffset : Int) (props : List (Option Property)) :
    List (Option Property) :=
  cbtpLoop buf (msg.bigBlockSize / PROPERTY_SIZE)
    (getBlockOffsetAt msg propertyBlockOffset) props

/-- Chain loop of `propertyData`:
`while (currentOffset != END_OF_CHAIN) { convertBlockToProperties; next }`.
The loop has no step bound in the source; `none` means the fuel ran out
before the end-of-chain sentinel appeared. -/
def propertyChainLoop (buf : Buffer) (msg : MsgData) :
    Nat → Int → List (Option Property) → Option (List (Option Property))
  | 0, currentOffset, props =>
      if currentOffset = END_OF_CHAIN then some props else none
  | Nat.succ n, currentOffset, props =>
      if currentOffset = END_OF_CHAIN then some props
      else
        propertyChainLoop buf msg n (getNextBlock buf msg currentOffset)
          (convertBlockToProperties buf msg currentOffset props)

/-- Assign `props[idx].children = cs` (object mutation of the source). -/
def setChildren (props : List (Option Property)) (idx : Nat) (cs : List Int) :
    List (Option Property) :=
  props.set idx ((props.getD idx none).map fun p => { p with children := some cs })

/-- Append one index to `props[idx].children`. -/
def appendChild (props : List (Option Property)) (idx : Nat) (c : Int) :
    List (Option Property) :=
  props.set idx ((props.getD idx none).map fun p =>
    { p with children := some ((p.children.getD []) ++ [c]) })

mutual

/-- `createPropertyHierarchy` with fuel: expand the sibling binary tree of
`props[nodeIdx]` into its flat `children` list (`none` when the fuel runs
out, or when the node is a hole — JS would throw there). -/
def createPropertyHierarchyF : Nat → List (Option Property) → Nat →
    Option (List (Option Property))
  | 0, _, _ => none
  | Nat.succ fuel, props, nodeIdx =>
      match props.getD nodeIdx none with
      | none => none
      | some node =>
          if node.childProperty = PROP_NO_INDEX then some props
          else cphQueueLoop fuel (setChildren props nodeIdx []) nodeIdx
            [node.childProperty]

/-- Work-list loop of `createPropertyHierarchy`: `children.shift()` pops
the front, hole entries are skipped, directory entries are recursed into,
and non-sentinel sibling pointers are pushed to the back. -/
def cphQueueLoop : Nat → List (Option Property) → Nat → List Int →
    Option (List (Option Property))
  | 0, _, _, _ => none
  | Nat.succ fuel, props, nodeIdx, queue =>
      match queue with
      | [] => some props
      | currentIndex :: rest =>
          let current :=
            if 0 ≤ currentIndex then props.getD currentIndex.toNat none else none
          match current with
          | none => cphQueueLoop fuel props nodeIdx rest
          | some cur =>
              let props1 := appendChild props nodeIdx currentIndex
              let props2? :=
                if cur.type = TYPE_DIRECTORY then
                  createPropertyHierarchyF fuel props1 currentIndex.toNat
                else some props1
              match props2? with
              | none => none
              | some props2 =>
                  let q1 :=
                    if cur.previousProperty ≠ PROP_NO_INDEX then
                      rest ++ [cur.previousProperty]
                    else rest
                  let q2 :=
                    if cur.nextProperty ≠ PROP_NO_INDEX then
                      q1 ++ [cur.nextProperty]
                    else q1
                  cphQueueLoop fuel props2 nodeIdx q2

end

/-- `propertyData`: follow the property-block chain from `propertyStart`,
then reconstruct the hierarchy from the root at index 0. -/
def propertyDataF (buf : Buffer) (msg : MsgData) (fuel : Nat) :
    Option (List (Option Property)) :=
  match propertyChainLoop buf msg fuel msg.propertyStart [] with
  | none => none
  | some props => createPropertyHierarchyF fuel props 0

/-! Field extraction. -/

/-- `String.prototype.toLowerCase` on one code unit, modelled on the Basic
Latin range (the only code points the hex field codes and mapping keys of
the source can contain). -/
def jsToLower (u : Nat) : Nat := if 65 ≤ u ∧ u ≤ 90 then u + 32 else u

/-- Lowercasing of a code-unit string. -/
def jsToLowerStr (s : JSStr) : JSStr := s.map jsToLower

/-- `String.prototype.substring(a, b)` on code units (for `a ≤ b`). -/
def substrUnits (s : JSStr) (a b : Nat) : JSStr := (s.drop a).take (b - a)

/-- `CONST.MSG.FIELD.NAME_MAPPING`: field-class code to output field name. -/
def NAME_MAPPING (k : JSStr) : Option String :=
  if k = strU "0037" then some "subject"
  else if k = strU "0c1a" then some "senderName"
  else if k = strU "5d02" then some "senderEmail"
  else if k = strU "1000" then some "body"
  else if k = strU "1013" then some "bodyHTML"
  else if k = strU "007d" then some "headers"
  else if k = strU "3703" then some "extension"
  else if k = strU "3704" then some "fileNameShort"
  else if k = strU "3707" then some "fileName"
  else if k = strU "3712" then some "pidContentId"
  else if k = strU "370e" then some "mimeType"
  else if k = strU "3001" then some "name"
  else if k = strU "39fe" then some "email"
  else none

/-- `CONST.MSG.FIELD.CLASS_MAPPING.ATTACHMENT_DATA`. -/
def ATTACHMENT_DATA : JSStr := strU "3701"

/-- The three decoder kinds of `CONST.MSG.FIELD.TYPE_MAPPING`
(`'001e' → string`, `'001f' → unicode`, `'0102' → binary`). -/
inductive DType where
  | dstring
  | dunicode
  | dbinary
deriving Repr, DecidableEq, BEq

/-- `CONST.MSG.FIELD.TYPE_MAPPING` (an unmapped type code gives `none`,
i.e. JS `undefined`). -/
def TYPE_MAPPING (k : JSStr) : Option DType :=
  if k = strU "001e" then some .dstring
  else if k = strU "001f" then some .dunicode
  else if k = strU "0102" then some .dbinary
  else none

/-- `CONST.MSG.FIELD.DIR_TYPE.INNER_MSG`. -/
def INNER_MSG : JSStr := strU "000d"

/-- `CONST.MSG.FIELD.PREFIX` constants as code-unit strings. -/
def ATTACHMENT_MARK : JSStr := strU "__attach_version1.0"
def RECIPIENT_MARK : JSStr := strU "__recip_version1.0"
def DOCUMENT_MARK : JSStr := strU "__substg1."

/-- `getFieldType`: hex type-code segment (units 4 to 8) of the lowercased
name with its 12-unit prefix removed. -/
def getFieldType (p : Property) : JSStr :=
  substrUnits (jsToLowerStr (p.name.drop 12)) 4 8

/-! UTF-8 decoding.  `convertUint8ArrayToString` of the source calls the
platform's `new TextDecoder('utf-8').decode(...)`, which is not part of
this repository.  Modelled from the spec: the standard (WHATWG) UTF-8
decoder in its default non-fatal mode — invalid sequences decode to
U+FFFD, a leading byte-order mark is removed, and code points above
U+FFFF become surrogate pairs in the resulting JS string. -/

/-- State of the standard UTF-8 decoder: collected code point, bytes seen,
bytes needed, and the accepted range of the next continuation byte. -/
structure Utf8State where
  codePoint : Nat := 0
  bytesSeen : Nat := 0
  bytesNeeded : Nat := 0
  lowerBoundary : Nat := 0x80
  upperBoundary : Nat := 0xbf

/-- A code point as UTF-16 code units (surrogate pair above U+FFFF). -/
def cpToUnits (cp : Nat) : List Nat :=
  if cp < 0x10000 then [cp]
  else [0xd800 + (cp - 0x10000) / 0x400, 0xdc00 + (cp - 0x10000) % 0x400]

/-- UTF-8 decoder step on a byte arriving in the initial state. -/
def utf8Start (b : Nat) : Utf8State × List Nat :=
  if b ≤ 0x7f then ({}, [b])
  else if 0xc2 ≤ b ∧ b ≤ 0xdf then
    ({ bytesNeeded := 1, codePoint := b % 0x20 }, [])
  else if 0xe0 ≤ b ∧ b ≤ 0xef then
    ({ bytesNeeded := 2, codePoint := b % 0x10
       lowerBoundary := if b = 0xe0 then 0xa0 else 0x80
       upperBoundary := if b = 0xed then 0x9f else 0xbf }, [])
  else if 0xf0 ≤ b ∧ b ≤ 0xf4 then
    ({ bytesNeeded := 3, codePoint := b % 0x08
       lowerBoundary := if b = 0xf0 then 0x90 else 0x80
       upperBoundary := if b = 0xf4 then 0x8f else 0xbf }, [])
  else ({}, [0xfffd])

/-- UTF-8 decoder step on one byte. -/
def utf8Step (st : Utf8State) (b : Nat) : Utf8State × List Nat :=
  if st.bytesNeeded = 0 then utf8Start b
  else if st.lowerBoundary ≤ b ∧ b ≤ st.upperBoundary then
    let st' : Utf8State :=
      { codePoint := st.codePoint * 0x40 + b % 0x40
        bytesSeen := st.bytesSeen + 1
        bytesNeeded := st.bytesNeeded }
    if st'.bytesSeen = st'.bytesNeeded then ({}, cpToUnits st'.codePoint)
    else (st', [])
  else
    let (st', us) := utf8Start b
    (st', 0xfffd :: us)

/-- Run of the UTF-8 decoder over a byte list (a truncated final sequence
emits one replacement character). -/
def utf8Run (st : Utf8State) : List Nat → List Nat
  | [] => if st.bytesNeeded ≠ 0 then [0xfffd] else []
  | b :: rest =>
      let (st', us) := utf8Step st b
      us ++ utf8Run st' rest

/-- `convertUint8ArrayToString`: standard UTF-8 decode (the default
decoder removes a leading byte-order mark). -/
def convertUint8ArrayToString (bytes : List Nat) : JSStr :=
  match utf8Run {} bytes with
  | 0xfeff :: rest => rest
  | us => us

/-- The `convertUint8ArrayToString` call applied to a field value (on a
non-byte-array value `TextDecoder.decode` would throw; the embedding
passes such a value through, which no theorem relies on). -/
def convertBinaryValue : Value → Value
  | .bytes b => .str (convertUint8ArrayToString b)
  | v => v

/-- `applyValueConverter`: the one cross-type conversion — a binary-typed
`bodyHTML` value is decoded as UTF-8 text. -/
def applyValueConverter (fieldName : String) (fieldTypeMapped : Option DType)
    (fieldValue : Value) : Value :=
  if fieldTypeMapped = some .dbinary ∧ fieldName = "bodyHTML" then
    convertBinaryValue fieldValue
  else fieldValue

/-- `isAddPropertyValue`:
`fieldName !== 'body' || fieldTypeMapped !== 'binary'`. -/
def isAddPropertyValue (fieldName : String) (fieldTypeMapped : Option DType) : Bool :=
  fieldName ≠ "body" ∨ fieldTypeMapped ≠ some .dbinary

/-- The three `extractorFieldValue.sbat.dataType` decoders: seek to
`blockStartOffset + bigBlockOffset` and decode `blockSize` bytes as an
ASCII string, `blockSize / 2` UTF-16 units, or `blockSize` raw bytes. -/
def sbatDataTypeExtract (d : DType) (buf : Buffer)
    (blockStartOffset bigBlockOffset blockSize : Int) : Value :=
  let pos : Int := seekPos buf.length (blockStartOffset + bigBlockOffset)
  match d with
  | .dstring => .str (readStringAscii buf pos blockSize.toNat)
  | .dunicode => .str (readUCS2StringAt buf pos (Int.tdiv blockSize 2).toNat)
  | .dbinary => .bytes (readUint8ArrayAt buf pos blockSize.toNat)

/-- The `extractorFieldValue.bat.extractor` path with its three
`dataType` decoders: seek to the field's big-block offset and decode
`sizeBlock` bytes in place. -/
def extractDataViaBat (d : DType) (buf : Buffer) (msg : MsgData)
    (fieldProperty : Property) : Value :=
  let pos : Int := seekPos buf.length (getBlockOffsetAt msg fieldProperty.startBlock)
  match d with
  | .dstring => .str (readStringAscii buf pos fieldProperty.sizeBlock.toNat)
  | .dunicode =>
      .str (readUCS2StringAt buf pos (Int.tdiv fieldProperty.sizeBlock 2).toNat)
  | .dbinary => .bytes (readUint8ArrayAt buf pos fieldProperty.sizeBlock.toNat)

/-- Root-chain walk of `readDataByBlockSmall`: apply `getNextBlock`
`n` times. -/
def iterateNextBlock (buf : Buffer) (msg : MsgData) : Nat → Int → Int
  | 0, b => b
  | Nat.succ n, b => iterateNextBlock buf msg n (getNextBlock buf msg b)

/-- `readDataByBlockSmall`: compute the physical position of small block
`startBlock` inside the root property's big-block chain and decode
`blockSize` bytes there (`none` when the root property is a hole — JS
would throw dereferencing it). -/
def readDataByBlockSmall (d : DType) (buf : Buffer) (msg : MsgData)
    (startBlock blockSize : Int) : Option Value :=
  let byteOffset := startBlock * (SMALL_BLOCK_SIZE : Int)
  let bigBlockNumber := Int.fdiv byteOffset (msg.bigBlockSize : Int)
  let bigBlockOffset := Int.tmod byteOffset (msg.bigBlockSize : Int)
  match msg.propertyData.getD 0 none with
  | none => none
  | some rootProp =>
      let nextBlock := iterateNextBlock buf msg bigBlockNumber.toNat rootProp.startBlock
      some (sbatDataTypeExtract d buf (getBlockOffsetAt msg nextBlock) bigBlockOffset
        blockSize)

/-- `readChainDataByBlockSmall`: concatenate the 64 raw bytes of every
small block of the chain into a `sizeBlock`-long zero-initialised buffer
(writes past its end are dropped, as on a JS typed array) and decode from
offset 0 of that buffer. -/
def readChainDataByBlockSmall (d : DType) (buf : Buffer) (msg : MsgData)
    (fieldProperty : Property) (chain : List Int) : Option Value :=
  let datas? :=
    chain.mapM fun b =>
      match readDataByBlockSmall .dbinary buf msg b (SMALL_BLOCK_SIZE : Nat) with
      | some (.bytes bs) => some bs
      | _ => none
  match datas? with
  | none => none
  | some datas =>
      let size := fieldProperty.sizeBlock.toNat
      let flat := datas.flatten
      let resultData := flat.take size ++ List.replicate (size - flat.length) 0
      some (sbatDataTypeExtract d resultData 0 0 fieldProperty.sizeBlock)

/-- `getChainByBlockSmall` with fuel:
`while (next != END_OF_CHAIN) { push; next = getNextBlockSmall }` — the
loop has no step bound in the source, `none` means the fuel ran out. -/
def getChainByBlockSmallF (buf : Buffer) (msg : MsgData) :
    Nat → Int → Option (List Int)
  | 0, next => if next = END_OF_CHAIN then some [] else none
  | Nat.succ n, next =>
      if next = END_OF_CHAIN then some []
      else
        (getChainByBlockSmallF buf msg n (getNextBlockSmall buf msg next)).map
          fun c => next :: c

/-- `extractorFieldValue.sbat.extractor`: resolve the small-block chain;
one link decodes in place via `readDataByBlockSmall`, several links decode
from the concatenation, an empty chain yields `null`. -/
def extractDataViaSbat (d : DType) (buf : Buffer) (msg : MsgData)
    (fieldProperty : Property) (fuel : Nat) : Option Value :=
  match getChainByBlockSmallF buf msg fuel fieldProperty.startBlock with
  | none => none
  | some chain =>
      if chain.length = 1 then
        readDataByBlockSmall d buf msg fieldProperty.startBlock fieldProperty.sizeBlock
      else if 1 < chain.length then
        readChainDataByBlockSmall d buf msg fieldProperty chain
      else some .null

/-- `getFieldValue`: small-block path below the 4096-byte threshold,
big-block path at or above it; an unmapped type code leaves the value
`null`. -/
def getFieldValueF (fuel : Nat) (buf : Buffer) (msg : MsgData)
    (fieldProperty : Property) (typeMapped : Option DType) : Option Value :=
  match typeMapped with
  | none => some .null
  | some d =>
      if fieldProperty.sizeBlock < BIG_BLOCK_MIN_DOC_SIZE then
        extractDataViaSbat d buf msg fieldProperty fuel
      else some (extractDataViaBat d buf msg fieldProperty)

/-- `fieldsDataDocument`: split the lowercased name after its 12-unit
prefix into the class code (units 0–4) and type code (units 4–8); store
the decoded value under the mapped name unless `isAddPropertyValue`
rejects it; for the attachment-payload class `3701` record `dataId` and
`contentLength` on the current record. -/
def fieldsDataDocumentF (fuel : Nat) (buf : Buffer) (msg : MsgData)
    (documentProperty : Property) (fields : FieldObj) : Option FieldObj :=
  let value := jsToLowerStr (documentProperty.name.drop 12)
  let fieldClass := substrUnits value 0 4
  let fieldType := substrUnits value 4 8
  let fieldTypeMapped := TYPE_MAPPING fieldType
  let step1 :=
    match NAME_MAPPING fieldClass with
    | none => some fields
    | some fieldName =>
        match getFieldValueF fuel buf msg documentProperty fieldTypeMapped with
        | none => none
        | some fieldValue =>
            if isAddPropertyValue fieldName fieldTypeMapped then
              some (setField fields fieldName
                (applyValueConverter fieldName fieldTypeMapped fieldValue))
            else some fields
  match step1 with
  | none => none
  | some f1 =>
      if fieldClass = ATTACHMENT_DATA then
        some (setField (setField f1 "dataId" (.num documentProperty.index))
          "contentLength" (.num documentProperty.sizeBlock))
      else some f1

mutual

/-- `fieldsDataDir`: walk the `children` of a directory node, descending
into sub-directories and decoding prefixed document streams. -/
def fieldsDataDirF : Nat → Buffer → MsgData → Property → FieldObj → Option FieldObj
  | 0, _, _, _, _ => none
  | Nat.succ fuel, buf, msg, dirProperty, fields =>
      match dirProperty.children with
      | none => some fields
      | some cs =>
          if 0 < cs.length then fddChildrenLoop fuel buf msg cs fields
          else some fields

/-- Child loop of `fieldsDataDir` (`none` on a hole child, where JS would
throw, or when the fuel runs out). -/
def fddChildrenLoop : Nat → Buffer → MsgData → List Int → FieldObj → Option FieldObj
  | 0, _, _, _, _ => none
  | Nat.succ fuel, buf, msg, cs, fields =>
      match cs with
      | [] => some fields
      | c :: rest =>
          let childProperty :=
            if 0 ≤ c then msg.propertyData.getD c.toNat none else none
          match childProperty with
          | none => none
          | some child =>
              let after :=
                if child.type = TYPE_DIRECTORY then
                  fieldsDataDirInnerF fuel buf msg child fields
                else if child.type = TYPE_DOCUMENT ∧
                    DOCUMENT_MARK.isPrefixOf child.name then
                  fieldsDataDocumentF fuel buf msg child fields
                else some fields
              match after with
              | none => none
              | some fields' => fddChildrenLoop fuel buf msg rest fields'

/-- `fieldsDataDirInner`: attachment- and recipient-marked directories
start a fresh record appended to the corresponding list; an inner-message
directory only sets `innerMsgContent`; any other directory is walked into
the current record. -/
def fieldsDataDirInnerF : Nat → Buffer → MsgData → Property → FieldObj → Option FieldObj
  | 0, _, _, _, _ => none
  | Nat.succ fuel, buf, msg, dirProperty, fields =>
      if ATTACHMENT_MARK.isPrefixOf dirProperty.name then
        match fieldsDataDirF fuel buf msg dirProperty emptyFieldObj with
        | none => none
        | some rec =>
            match fields with
            | .mk m a r i =>
                match a with
                | none => none
                | some l => some (.mk m (some (l ++ [rec])) r i)
      else if RECIPIENT_MARK.isPrefixOf dirProperty.name then
        match fieldsDataDirF fuel buf msg dirProperty emptyFieldObj with
        | none => none
        | some rec =>
            match fields with
            | .mk m a r i =>
                match r with
                | none => none
                | some l => some (.mk m a (some (l ++ [rec])) i)
      else
        if getFieldType dirProperty ≠ INNER_MSG then
          fieldsDataDirF fuel buf msg dirProperty fields
        else
          match fields with
          | .mk m a r _ => some (.mk m a r true)

end

/-- `fieldsData`: walk the property tree from the root record (`none` when
the root property is a hole — JS would throw — or the fuel runs out). -/
def fieldsDataF (fuel : Nat) (buf : Buffer) (msg : MsgData) : Option FieldObj :=
  match msg.propertyData.getD 0 none with
  | none => none
  | some root => fieldsDataDirF fuel buf msg root initialFields

/-- The first, always-terminating stage of `parseMsgData`: header, BAT,
SBAT and (when `xbatCount > 0`) XBAT resolution. -/
def preParse (buf : Buffer) : MsgData :=
  let msg0 := headerData buf
  let msg1 := { msg0 with batData := batData buf msg0 }
  let msg2 := { msg1 with sbatData := sbatData buf msg1 }
  if 0 < msg2.xbatCount then xbatData buf msg2 else msg2

/-- `parseMsgData` with fuel: tables, property tree, then field data. -/
def parseMsgDataF (fuel : Nat) (buf : Buffer) : Option MsgData :=
  let msg3 := preParse buf
  match propertyDataF buf msg3 fuel with
  | none => none
  | some props =>
      let msg4 := { msg3 with propertyData := props }
      match fieldsDataF fuel buf msg4 with
      | none => none
      | some fd => some { msg4 with fieldsData := fd }

/-! The `MSGReader` facade. -/

/-- A reader instance: the byte cursor over the input buffer and the
parse result memoized by `getFileData` (absent until a successful parse). -/
structure MSGReaderState where
  buf : Buffer
  fileData : Option MsgData := none

/-- Result of `getFileData`: the error object `{ error: … }` for a
signature mismatch, or the extracted fields. -/
inductive FileDataResult where
  | error (msg : String)
  | fields (fd : FieldObj)

/-- `MSGReader.prototype.getFileData` with fuel: reject a non-CFB
signature without parsing, otherwise parse (memoized) and return the
field data. -/
def getFileDataF (fuel : Nat) (r : MSGReaderState) :
    Option (MSGReaderState × FileDataResult) :=
  if ¬ isMSGFile r.buf then some (r, .error "Unsupported file type!")
  else
    match r.fileData with
    | some fd => some (r, .fields fd.fieldsData)
    | none =>
        match parseMsgDataF fuel r.buf with
        | none => none
        | some d => some ({ r with fileData := some d }, .fields d.fieldsData)

/-- Outcome of `getAttachment`: `noParse` is the `TypeError` thrown when
`this.fileData` is absent (no successful `getFileData` happened); `failed`
is any other thrown lookup error or exhausted fuel; `ok` carries the
returned `{ fileName, content }`. -/
inductive AttachResult where
  | noParse
  | failed
  | ok (fileName : Option Value) (content : Value)
deriving DecidableEq

/-- `MSGReader.prototype.getAttachment` for a numeric argument: index the
`attachments` list, resolve the record's `dataId` back to its property,
and decode the binary payload on demand with `getFieldValue`. -/
def getAttachmentF (fuel : Nat) (r : MSGReaderState) (attach : Nat) : AttachResult :=
  match r.fileData with
  | none => .noParse
  | some fd =>
      match fd.fieldsData.attachments.bind fun l => l.get? attach with
      | none => .failed
      | some attachData =>
          match getAssoc attachData.map "dataId" with
          | some (.num d) =>
              match (if 0 ≤ d then fd.propertyData.getD d.toNat none else none) with
              | none => .failed
              | some fieldProperty =>
                  match getFieldValueF fuel r.buf fd fieldProperty
                      (TYPE_MAPPING (getFieldType fieldProperty)) with
                  | none => .failed
                  | some v => .ok (getAssoc attachData.map "fileName") v
          | _ => .failed

/-! The NaN-aware `seek` of the byte cursor (claim C9).  JS numbers are
modelled as NaN, the two infinities, or a finite rational. -/

/-- A JS number argument: NaN, an infinity, or a finite value. -/
inductive JSNum where
  | nan
  | posInf
  | negInf
  | fin (q : ℚ)
deriving DecidableEq

/-- JS `isNaN`. -/
def jsIsNaN : JSNum → Bool
  | .nan => true
  | _ => false

/-- JS `isFinite`. -/
def jsIsFinite : JSNum → Bool
  | .fin _ => true
  | _ => false

/-- `Math.min` on two JS numbers (NaN-propagating). -/
def jsMin : JSNum → JSNum → JSNum
  | .nan, _ => .nan
  | _, .nan => .nan
  | .negInf, _ => .negInf
  | _, .negInf => .negInf
  | .posInf, b => b
  | a, .posInf => a
  | .fin a, .fin b => .fin (min a b)

/-- `Math.max` on two JS numbers (NaN-propagating). -/
def jsMax : JSNum → JSNum → JSNum
  | .nan, _ => .nan
  | _, .nan => .nan
  | .posInf, _ => .posInf
  | _, .posInf => .posInf
  | .negInf, b => b
  | a, .negInf => a
  | .fin a, .fin b => .fin (max a b)

/-- The number a JS number assigns to `this.position` (only reached on
finite values in `seek`). -/
def jsToRat : JSNum → ℚ
  | .fin q => q
  | _ => 0

/-- `DataStream.prototype.seek` on a stream of byte length `len`:
`npos = Math.max(0, Math.min(byteLength, pos))`, then NaN/non-finite
values reset the position to 0. -/
def seekJS (len : Nat) (pos : JSNum) : ℚ :=
  let npos := jsMax (.fin 0) (jsMin (.fin (len : ℚ)) pos)
  if jsIsNaN npos ∨ ¬ jsIsFinite npos then 0 else jsToRat npos

/-! Termination predicates for the unbounded traversals (claim C2). -/

/-- Termination of the property-block chain walk of `propertyData` on a
given parse state: some amount of fuel lets the `while` loop reach the
end-of-chain sentinel. -/
def propertyChainTerminates (buf : Buffer) (msg : MsgData) : Prop :=
  ∃ fuel, (propertyChainLoop buf msg fuel msg.propertyStart []).isSome

/-- Termination of `parseMsgData` on a buffer. -/
def parseTerminates (buf : Buffer) : Prop :=
  ∃ fuel, (parseMsgDataF fuel buf).isSome

/-- Termination of `getChainByBlockSmall` from a given start block. -/
def chainSmallTerminates (buf : Buffer) (msg : MsgData) (start : Int) : Prop :=
  ∃ fuel, (getChainByBlockSmallF buf msg fuel start).isSome

/-- A 1536-byte compound file whose property-block chain is cyclic: the
header is valid (signature, 512-byte blocks, one BAT block at block 0,
property chain starting at block 1, no SBAT/XBAT), and BAT slot 1 — the
next-block pointer of property block 1 — points back to block 1. -/
def cycBuf : Buffer :=
  sigBytes ++ List.replicate 22 0
    ++ [9] ++ List.replicate 13 0
    ++ [1, 0, 0, 0]
    ++ [1, 0, 0, 0]
    ++ List.replicate 8 0
    ++ [0xfe, 0xff, 0xff, 0xff]
    ++ [0, 0, 0, 0]
    ++ [0, 0, 0, 0]
    ++ [0, 0, 0, 0]
    ++ [0, 0, 0, 0]
    ++ List.replicate 432 0
    ++ ([0, 0, 0, 0] ++ [1, 0, 0, 0] ++ List.replicate 504 0)
    ++ List.replicate 512 0

/-- The parse state of `cycBuf` after the always-terminating table stage. -/
def cycMsg : MsgData := preParse cycBuf

/-- An all-zero 1024-byte buffer and a state whose small-block table is
block 0: small block 0's next-pointer slot reads 0, a self-loop. -/
def cycSmallBuf : Buffer := List.replicate 1024 0

/-- State under which `getChainByBlockSmall` cycles on `cycSmallBuf`. -/
def cycSmallMsg : MsgData := { sbatData := [0] }

/-! Helper lemmas. -/

/-- Bytes of a buffer view are below 256. -/
theorem byteAt_lt (buf : Buffer) (i : Int) : byteAt buf i < 256 := by
  unfold byteAt
  split
  · omega
  · exact Nat.mod_lt _ (by omega)

/-- Signed 8-bit reinterpretation is injective on byte values. -/
theorem toSigned8_inj {a b : Nat} (ha : a < 256) (hb : b < 256) :
    toSigned 8 a = toSigned 8 b ↔ a = b := by
  unfold toSigned
  have ha' : a % 2 ^ 8 = a := Nat.mod_eq_of_lt ha
  have hb' : b % 2 ^ 8 = b := Nat.mod_eq_of_lt hb
  rw [ha', hb']
  constructor
  · intro h
    by_cases h1 : a < 2 ^ (8 - 1) <;> by_cases h2 : b < 2 ^ (8 - 1) <;>
      simp [h1, h2] at h <;> omega
  · intro h
    rw [h]

/-- Association-list lookup after an update at the same key. -/
theorem getAssoc_setAssoc_self (m : List (String × Value)) (k : String) (v : Value) :
    getAssoc (setAssoc m k v) k = some v := by
  induction m with
  | nil => simp [setAssoc, getAssoc]
  | cons h t ih =>
      obtain ⟨k', v'⟩ := h
      by_cases hk : k' = k
      · simp [setAssoc, getAssoc, hk]
      · simp [setAssoc, getAssoc, hk, ih]

/-- Association-list lookup after an update at another key. -/
theorem getAssoc_setAssoc_ne (m : List (String × Value)) {k k' : String}
    (v : Value) (h : k' ≠ k) : getAssoc (setAssoc m k' v) k = getAssoc m k := by
  induction m with
  | nil => simp [setAssoc, getAssoc, h]
  | cons hd t ih =>
      obtain ⟨k0, v0⟩ := hd
      by_cases hk : k0 = k'
      · simp [setAssoc, getAssoc, hk, h]
      · simp only [setAssoc, getAssoc, if_neg hk]
        by_cases hk2 : k0 = k <;> simp [hk2, ih]

/-! Claim C9.  The source clamps `seek` targets with
`Math.max(0, Math.min(byteLength, pos))` and only then resets a NaN or
non-finite clamp result to 0 — but the clamp of `+Infinity` is already the
finite `byteLength`, so a `seek(+Infinity)` lands at the end of the
buffer, not at 0. -/

/-- C9 (counterexample): on a 5-byte stream, `seek(+Infinity)` sets the
position to 5, not to 0 as the claim states for non-finite arguments. -/
theorem seekJS_posInf_cex : seekJS 5 .posInf = 5 ∧ (5 : ℚ) ≠ 0 := by
  constructor
  · decide
  · decide

/-- C9 (amended): `seek` clamps every finite argument into `[0, length]`,
resets NaN to 0, clamps `-Infinity` to 0 and `+Infinity` to the buffer
length, and the resulting position never exceeds the buffer length. -/
theorem seekJS_clamps (len : Nat) (q : ℚ) (p : JSNum) :
    seekJS len (.fin q) = max 0 (min (len : ℚ) q)
    ∧ seekJS len .nan = 0
    ∧ seekJS len .negInf = 0
    ∧ seekJS len .posInf = len
    ∧ seekJS len p ≤ len := by
  refine ⟨?_, ?_, ?_, ?_, ?_⟩
  · simp [seekJS, jsMin, jsMax, jsIsNaN, jsIsFinite, jsToRat]
  · simp [seekJS, jsMin, jsMax, jsIsNaN, jsIsFinite, jsToRat]
  · simp [seekJS, jsMin, jsMax, jsIsNaN, jsIsFinite, jsToRat]
  · simp [seekJS, jsMin, jsMax, jsIsNaN, jsIsFinite, jsToRat]
  · have hlen : (0 : ℚ) ≤ (len : ℚ) := by positivity
    cases p with
    | nan => simp [seekJS, jsMin, jsMax, jsIsNaN, jsIsFinite, jsToRat]
    | posInf => simp [seekJS, jsMin, jsMax, jsIsNaN, jsIsFinite, jsToRat]
    | negInf => simp [seekJS, jsMin, jsMax, jsIsNaN, jsIsFinite, jsToRat]
    | fin q =>
        simp only [seekJS, jsMin, jsMax, jsIsNaN, jsIsFinite, jsToRat,
          Bool.false_eq_true, false_or, not_true, ite_false, if_false]
        exact le_trans (le_of_eq rfl) (max_le hlen (min_le_left (len : ℚ) q))

/-! Claim C2.  Only `sbatData` bounds its chain walk by a header count;
the property-block chain of `propertyData` and the small-block chain of
`getChainByBlockSmall` stop only at the end-of-chain sentinel, so a
cyclic chain makes the parser loop forever. -/

/-- One cyclic step of the property chain of `cycBuf`: the next-block
pointer of property block 1 is block 1 itself. -/
theorem cyc_next_step : getNextBlock cycBuf cycMsg 1 = 1 := by decide

/-- Start of the property chain of `cycBuf`. -/
theorem cyc_propertyStart : cycMsg.propertyStart = 1 := by decide

/-- On `cycBuf` the property-chain loop runs out of any amount of fuel. -/
theorem cyc_chain_none :
    ∀ fuel props, propertyChainLoop cycBuf cycMsg fuel 1 props = none := by
  intro fuel
  induction fuel with
  | zero =>
      intro props
      simp [propertyChainLoop, END_OF_CHAIN]
  | succ n ih =>
      intro props
      rw [propertyChainLoop, if_neg (by simp [END_OF_CHAIN]), cyc_next_step]
      exact ih _

/-- One cyclic step of the small-block chain on the all-zero buffer:
small block 0's next pointer is 0. -/
theorem cycSmall_next_step : getNextBlockSmall cycSmallBuf cycSmallMsg 0 = 0 := by
  decide

/-- On `cycSmallBuf` the small-block chain walk runs out of any fuel. -/
theorem cycSmall_chain_none :
    ∀ fuel, getChainByBlockSmallF cycSmallBuf cycSmallMsg fuel 0 = none := by
  intro fuel
  induction fuel with
  | zero => simp [getChainByBlockSmallF, END_OF_CHAIN]
  | succ n ih =>
      rw [getChainByBlockSmallF, if_neg (by simp [END_OF_CHAIN]), cycSmall_next_step,
        ih]
      rfl

/-- C2 (counterexample): `cycBuf` is a compound file with a valid
signature whose property-block chain is a one-block cycle; `parseMsgData`
on it never terminates, refuting the claim that every allocation-chain
traversal performed during parsing halts within a count bound. -/
theorem parse_cyclic_diverges_cex : isMSGFile cycBuf = true ∧ ¬ parseTerminates cycBuf := by
  constructor
  · decide
  · rintro ⟨fuel, h⟩
    have hpd : propertyDataF cycBuf (preParse cycBuf) fuel = none := by
      show propertyDataF cycBuf cycMsg fuel = none
      unfold propertyDataF
      rw [cyc_propertyStart, cyc_chain_none]
    have hnone : parseMsgDataF fuel cycBuf = none := by
      simp only [parseMsgDataF, hpd]
    rw [hnone] at h
    simp at h

/-- C2 (amended): the `sbatData` resolver indeed visits at most
`sbatCount` blocks and never records the end-of-chain sentinel, and the
in-header BAT read is bounded by `batCountInHeader`; but the property-block
chain walk of `propertyData` and the small-block chain walk of
`getChainByBlockSmall` are bounded only by the end-of-chain sentinel, and
on a malformed cyclic chain they loop forever (witnessed by the concrete
cyclic states of `cycBuf` and `cycSmallBuf`). -/
theorem chain_traversal_bounds :
    (∀ buf msg, (sbatData buf msg).length ≤ msg.sbatCount.toNat)
    ∧ (∀ buf msg, END_OF_CHAIN ∉ sbatData buf msg)
    ∧ (∀ buf msg, (batData buf msg).length = (batCountInHeader msg).toNat)
    ∧ ¬ propertyChainTerminates cycBuf cycMsg
    ∧ ¬ chainSmallTerminates cycSmallBuf cycSmallMsg 0 := by
  have hlen : ∀ buf msg fuel start, (sbatDataLoop buf msg fuel start).length ≤ fuel := by
    intro buf msg fuel
    induction fuel with
    | zero => intro start; simp [sbatDataLoop]
    | succ n ih =>
        intro start
        rw [sbatDataLoop]
        split
        · simp
        · simpa using ih _
  have hmem : ∀ buf msg fuel start, END_OF_CHAIN ∉ sbatDataLoop buf msg fuel start := by
    intro buf msg fuel
    induction fuel with
    | zero => intro start; simp [sbatDataLoop]
    | succ n ih =>
        intro start
        rw [sbatDataLoop]
        split
        · simp
        · intro hmem
          rcases List.mem_cons.mp hmem with h | h
          · simp_all
          · exact ih _ h
  refine ⟨fun buf msg => hlen buf msg _ _, fun buf msg => hmem buf msg _ _, ?_, ?_, ?_⟩
  · intro buf msg
    rw [batData, List.length_map, List.length_range]
  · rintro ⟨fuel, h⟩
    rw [cyc_propertyStart, cyc_chain_none] at h
    simp at h
  · rintro ⟨fuel, h⟩
    rw [cycSmall_chain_none] at h
    simp at h

/-! Claim C1: the signature gate of `getFileData`. -/

/-- The signature check holds exactly when the first 8 bytes are the CFB
signature (the signed comparison against `uInt2int`-converted constants is
equivalent to raw byte equality). -/
theorem isMSGFile_iff_bytes (buf : Buffer) :
    isMSGFile buf = true ↔ ∀ i : Nat, i < 8 → byteAt buf (i : Int) = sigBytes.getD i 0 := by
  have hexp : isMSGFile buf = true ↔
      (toSigned 8 0xd0 = getInt8 buf 0 ∧ toSigned 8 0xcf = getInt8 buf 1 ∧
       toSigned 8 0x11 = getInt8 buf 2 ∧ toSigned 8 0xe0 = getInt8 buf 3 ∧
       toSigned 8 0xa1 = getInt8 buf 4 ∧ toSigned 8 0xb1 = getInt8 buf 5 ∧
       toSigned 8 0x1a = getInt8 buf 6 ∧ toSigned 8 0xe1 = getInt8 buf 7) := by
    rw [isMSGFile, beq_iff_eq]
    show uInt2int sigBytes = readInt8ArrayAt buf 0 (uInt2int sigBytes).length ↔ _
    have hlen : (uInt2int sigBytes).length = 8 := by decide
    rw [hlen]
    show uInt2int sigBytes =
        (List.range 8).map (fun (i : Nat) => getInt8 buf ((0 : Int) + (i : Int))) ↔ _
    have hr : List.range 8 = [0, 1, 2, 3, 4, 5, 6, 7] := by decide
    rw [hr]
    simp only [List.map, uInt2int, sigBytes, List.cons.injEq, and_true]
    norm_num
  have hcomp : ∀ (c : Nat), c < 256 → ∀ j : Int,
      (toSigned 8 c = getInt8 buf j ↔ byteAt buf j = c) := by
    intro c hc j
    rw [getInt8, eq_comm]
    rw [toSigned8_inj (byteAt_lt buf j) hc]
  rw [hexp]
  rw [hcomp 0xd0 (by omega) 0, hcomp 0xcf (by omega) 1, hcomp 0x11 (by omega) 2,
    hcomp 0xe0 (by omega) 3, hcomp 0xa1 (by omega) 4, hcomp 0xb1 (by omega) 5,
    hcomp 0x1a (by omega) 6, hcomp 0xe1 (by omega) 7]
  constructor
  · rintro ⟨h0, h1, h2, h3, h4, h5, h6, h7⟩ i hi
    interval_cases i <;> simpa [sigBytes]
  · intro h
    exact ⟨by simpa [sigBytes] using h 0 (by omega), by simpa [sigBytes] using h 1 (by omega),
      by simpa [sigBytes] using h 2 (by omega), by simpa [sigBytes] using h 3 (by omega),
      by simpa [sigBytes] using h 4 (by omega), by simpa [sigBytes] using h 5 (by omega),
      by simpa [sigBytes] using h 6 (by omega), by simpa [sigBytes] using h 7 (by omega)⟩

/-- C1: a buffer whose first 8 bytes differ from the CFB signature
`D0 CF 11 E0 A1 B1 1A E1` makes `getFileData` return the format-error
object at once — independently of the rest of the buffer and of the fuel,
with no parse result stored on the reader — while a buffer whose first 8
bytes equal the signature proceeds into `parseMsgData`, whose (memoized)
field data is returned. -/
theorem getFileData_signature_gate (buf : Buffer) :
    (¬ (∀ i : Nat, i < 8 → byteAt buf (i : Int) = sigBytes.getD i 0) →
      isMSGFile buf = false ∧
      ∀ fuel r, r.buf = buf →
        getFileDataF fuel r = some (r, .error "Unsupported file type!"))
    ∧ ((∀ i : Nat, i < 8 → byteAt buf (i : Int) = sigBytes.getD i 0) →
      isMSGFile buf = true ∧
      ∀ fuel, getFileDataF fuel ⟨buf, none⟩ =
        (parseMsgDataF fuel buf).map fun d =>
          (⟨buf, some d⟩, .fields d.fieldsData)) := by
  constructor
  · intro hbytes
    have hfalse : isMSGFile buf = false := by
      rcases Bool.eq_false_or_eq_true (isMSGFile buf) with h | h
      · exact absurd ((isMSGFile_iff_bytes buf).mp h) hbytes
      · exact h
    refine ⟨hfalse, ?_⟩
    intro fuel r hr
    rw [getFileDataF]
    rw [hr, hfalse]
    simp
  · intro hbytes
    have htrue : isMSGFile buf = true := (isMSGFile_iff_bytes buf).mpr hbytes
    refine ⟨htrue, ?_⟩
    intro fuel
    rw [getFileDataF]
    simp only [htrue, Bool.not_true]
    cases parseMsgDataF fuel buf <;> simp

/-- C1 (witness): the all-zero 8-byte buffer is rejected with the error
object and an untouched reader state, and the buffer starting with the
signature itself passes the gate into `parseMsgData`. -/
theorem getFileData_signature_gate_witness :
    (isMSGFile (List.replicate 8 0) = false ∧
      getFileDataF 0 ⟨List.replicate 8 0, none⟩ =
        some (⟨List.replicate 8 0, none⟩, .error "Unsupported file type!"))
    ∧ (isMSGFile sigBytes = true ∧
      getFileDataF 0 ⟨sigBytes, none⟩ =
        (parseMsgDataF 0 sigBytes).map fun d => (⟨sigBytes, some d⟩, .fields d.fieldsData)) :=
  ⟨⟨((getFileData_signature_gate (List.replicate 8 0)).1 (by decide)).1,
    ((getFileData_signature_gate (List.replicate 8 0)).1 (by decide)).2 0
      ⟨List.replicate 8 0, none⟩ rfl⟩,
   ⟨((getFileData_signature_gate sigBytes).2 (by decide)).1,
    ((getFileData_signature_gate sigBytes).2 (by decide)).2 0⟩⟩

/-! Claim C7: the header layout. -/

/-- Little-endian value of a byte list (claim-side description of a
"4-byte integer" at an offset). -/
def leBytes : List Nat → Nat
  | [] => 0
  | b :: t => b % 256 + 256 * leBytes t

/-- Seeks to positions inside the buffer do not clamp. -/
theorem seekPos_of_le {len : Nat} {off : Int} (h0 : 0 ≤ off) (h : off ≤ (len : Int)) :
    (seekPos len off : Int) = off := by
  unfold seekPos
  omega

/-- A 4-byte little-endian read agrees with the `leBytes` value of the
4-byte slice at that offset. -/
theorem getUint32LE_eq_leBytes (buf : Buffer) (off : Nat)
    (h : off + 4 ≤ buf.length) :
    getUint32LE buf (off : Int) = leBytes ((buf.drop off).take 4) := by
  have h0 : off < buf.length := by omega
  have h1 : off + 1 < buf.length := by omega
  have h2 : off + 2 < buf.length := by omega
  have h3 : off + 3 < buf.length := by omega
  have hd0 : buf.drop off = buf[off] :: buf.drop (off + 1) := List.drop_eq_getElem_cons h0
  have hd1 : buf.drop (off + 1) = buf[off + 1] :: buf.drop (off + 2) :=
    List.drop_eq_getElem_cons h1
  have hd2 : buf.drop (off + 2) = buf[off + 2] :: buf.drop (off + 3) :=
    List.drop_eq_getElem_cons h2
  have hd3 : buf.drop (off + 3) = buf[off + 3] :: buf.drop (off + 4) :=
    List.drop_eq_getElem_cons h3
  rw [hd0, hd1, hd2, hd3]
  simp only [getUint32LE, List.take, leBytes]
  have e : ∀ (k : Nat) (hk : k < buf.length) (j : Int), j = (k : Int) →
      byteAt buf j = buf[k] % 256 := by
    intro k hk j hj
    subst hj
    rw [byteAt, if_neg (by omega)]
    have ht : ((k : Int)).toNat = k := by omega
    rw [ht, List.getD_eq_getElem buf 0 hk]
  rw [e off h0 (off : Int) rfl, e (off + 1) h1 ((off : Int) + 1) (by push_cast; ring),
    e (off + 2) h2 ((off : Int) + 2) (by push_cast; ring),
    e (off + 3) h3 ((off : Int) + 3) (by push_cast; ring)]
  ring

/-- A header-field read (`readInt`) is the signed value of the raw 4-byte
little-endian slice at its offset, for a buffer that contains the header. -/
theorem dsReadInt_eq (buf : Buffer) (off : Nat) (h : off + 4 ≤ buf.length) :
    dsReadInt buf (off : Nat) = toSigned 32 (leBytes ((buf.drop off).take 4)) := by
  rw [dsReadInt, getInt32LE]
  have : (seekPos buf.length (off : Nat) : Int) = (off : Int) :=
    seekPos_of_le (by omega) (by omega)
  rw [show ((seekPos buf.length ((off : Nat) : Int)) : Int) = ((off : Nat) : Int) from this]
  rw [getUint32LE_eq_leBytes buf off h]

/-- C7: for a buffer long enough to contain the header, `headerData` reads
the 1-byte block-size class marker at offset 30 (4096-byte blocks exactly
when it is 12, else 512), the BAT count at 0x2C, the property-tree start
at 0x30, the SBAT start/count at 0x3C/0x40 and the XBAT start/count at
0x44/0x48 as little-endian 4-byte integers, and derives
`bigBlockLength = bigBlockSize / 4` and `xBlockLength = bigBlockLength - 1`. -/
theorem headerData_layout (buf : Buffer) (h : 0x50 ≤ buf.length) :
    (headerData buf).bigBlockSize = (if byteAt buf 30 = 12 then 4096 else 512)
    ∧ (headerData buf).batCount = toSigned 32 (leBytes ((buf.drop 0x2c).take 4))
    ∧ (headerData buf).propertyStart = toSigned 32 (leBytes ((buf.drop 0x30).take 4))
    ∧ (headerData buf).sbatStart = toSigned 32 (leBytes ((buf.drop 0x3c).take 4))
    ∧ (headerData buf).sbatCount = toSigned 32 (leBytes ((buf.drop 0x40).take 4))
    ∧ (headerData buf).xbatStart = toSigned 32 (leBytes ((buf.drop 0x44).take 4))
    ∧ (headerData buf).xbatCount = toSigned 32 (leBytes ((buf.drop 0x48).take 4))
    ∧ (headerData buf).bigBlockLength = (headerData buf).bigBlockSize / 4
    ∧ (headerData buf).xBlockLength = (headerData buf).bigBlockLength - 1 := by
  have hmark : (dsReadByte buf 30 = L_BIG_BLOCK_MARK) ↔ byteAt buf 30 = 12 := by
    rw [dsReadByte, getInt8]
    have : (seekPos buf.length 30 : Int) = 30 := seekPos_of_le (by omega) (by omega)
    rw [this]
    show toSigned 8 (byteAt buf 30) = toSigned 8 12 ↔ _
    rw [toSigned8_inj (byteAt_lt buf 30) (by omega)]
  refine ⟨?_, ?_, ?_, ?_, ?_, ?_, ?_, ?_, ?_⟩
  · show (if dsReadByte buf 30 = L_BIG_BLOCK_MARK then L_BIG_BLOCK_SIZE
      else S_BIG_BLOCK_SIZE) = _
    by_cases hm : byteAt buf 30 = 12
    · rw [if_pos (hmark.mpr hm), if_pos hm]
      rfl
    · rw [if_neg (fun hc => hm (hmark.mp hc)), if_neg hm]
      rfl
  · exact dsReadInt_eq buf 0x2c (by omega)
  · exact dsReadInt_eq buf 0x30 (by omega)
  · exact dsReadInt_eq buf 0x3c (by omega)
  · exact dsReadInt_eq buf 0x40 (by omega)
  · exact dsReadInt_eq buf 0x44 (by omega)
  · exact dsReadInt_eq buf 0x48 (by omega)
  · show (if dsReadByte buf 30 = L_BIG_BLOCK_MARK then L_BIG_BLOCK_SIZE
      else S_BIG_BLOCK_SIZE) / 4 = _
    rfl
  · show (if dsReadByte buf 30 = L_BIG_BLOCK_MARK then L_BIG_BLOCK_SIZE
      else S_BIG_BLOCK_SIZE) / 4 - 1 = _
    rfl

/-- C7 (witness): the header layout evaluated on the concrete buffer whose
byte at each position is the position itself. -/
theorem headerData_layout_witness :
    (headerData (List.range 0x50)).bigBlockSize =
      (if byteAt (List.range 0x50) 30 = 12 then 4096 else 512)
    ∧ (headerData (List.range 0x50)).batCount =
      toSigned 32 (leBytes (((List.range 0x50).drop 0x2c).take 4))
    ∧ (headerData (List.range 0x50)).propertyStart =
      toSigned 32 (leBytes (((List.range 0x50).drop 0x30).take 4))
    ∧ (headerData (List.range 0x50)).sbatStart =
      toSigned 32 (leBytes (((List.range 0x50).drop 0x3c).take 4))
    ∧ (headerData (List.range 0x50)).sbatCount =
      toSigned 32 (leBytes (((List.range 0x50).drop 0x40).take 4))
    ∧ (headerData (List.range 0x50)).xbatStart =
      toSigned 32 (leBytes (((List.range 0x50).drop 0x44).take 4))
    ∧ (headerData (List.range 0x50)).xbatCount =
      toSigned 32 (leBytes (((List.range 0x50).drop 0x48).take 4))
    ∧ (headerData (List.range 0x50)).bigBlockLength =
      (headerData (List.range 0x50)).bigBlockSize / 4
    ∧ (headerData (List.range 0x50)).xBlockLength =
      (headerData (List.range 0x50)).bigBlockLength - 1 :=
  headerData_layout (List.range 0x50) (by decide)

/-! Claim C3: the two small-block decode paths (and the big-block path)
agree whenever the underlying bytes they read agree. -/

/-- JS truncation of a halved size agrees with natural halving. -/
theorem tdiv_two_toNat (size : Int) : (Int.tdiv size 2).toNat = size.toNat / 2 := by
  cases size with
  | ofNat m => rfl
  | negSucc m =>
      show (-(Int.ofNat ((m + 1) / 2))).toNat = (Int.negSucc m).toNat / 2
      have h1 : (-(Int.ofNat ((m + 1) / 2))).toNat = 0 :=
        Int.toNat_of_nonpos (neg_nonpos.mpr (Int.ofNat_nonneg _))
      have h2 : (Int.negSucc m).toNat = 0 := rfl
      rw [h1, h2]

/-- Pointwise reading of an equality between byte-array reads. -/
theorem readUint8ArrayAt_congr {buf1 buf2 : Buffer} {p1 p2 : Int} {n : Nat}
    (h : readUint8ArrayAt buf1 p1 n = readUint8ArrayAt buf2 p2 n) :
    ∀ i : Nat, i < n → byteAt buf1 (p1 + (i : Int)) = byteAt buf2 (p2 + (i : Int)) := by
  intro i hi
  have := List.map_inj_left.mp h i (List.mem_range.mpr hi)
  exact this

/-- C3: each of the three typed decoders reads only the `sizeBlock` bytes
at its seek target, so the single-link small-block path (decode in place
at the block's physical offset), the multi-link path (decode the
concatenation at offset 0) and the big-block path (decode in place at the
big-block offset) produce equal values for equal underlying content;
moreover the extractor really takes the in-place path exactly on one-link
chains and the concatenation path on longer chains, and the big-block
extractor is the same in-place decode at the big-block physical offset. -/
theorem smallBlock_decode_paths_agree :
    (∀ (d : DType) (buf1 buf2 : Buffer) (s1 o1 s2 o2 size : Int),
      readUint8ArrayAt buf1 ((seekPos buf1.length (s1 + o1) : Nat) : Int) size.toNat =
        readUint8ArrayAt buf2 ((seekPos buf2.length (s2 + o2) : Nat) : Int) size.toNat →
      sbatDataTypeExtract d buf1 s1 o1 size = sbatDataTypeExtract d buf2 s2 o2 size)
    ∧ (∀ (d : DType) (buf : Buffer) (msg : MsgData) (p : Property) (fuel : Nat) (b : Int),
      getChainByBlockSmallF buf msg fuel p.startBlock = some [b] →
      extractDataViaSbat d buf msg p fuel =
        readDataByBlockSmall d buf msg p.startBlock p.sizeBlock)
    ∧ (∀ (d : DType) (buf : Buffer) (msg : MsgData) (p : Property) (fuel : Nat)
        (chain : List Int),
      getChainByBlockSmallF buf msg fuel p.startBlock = some chain →
      1 < chain.length →
      extractDataViaSbat d buf msg p fuel =
        readChainDataByBlockSmall d buf msg p chain)
    ∧ (∀ (d : DType) (buf : Buffer) (msg : MsgData) (p : Property),
      extractDataViaBat d buf msg p =
        sbatDataTypeExtract d buf (getBlockOffsetAt msg p.startBlock) 0 p.sizeBlock) := by
  refine ⟨?_, ?_, ?_, ?_⟩
  · intro d buf1 buf2 s1 o1 s2 o2 size h
    have hpt := readUint8ArrayAt_congr h
    cases d with
    | dstring =>
        simp only [sbatDataTypeExtract, readStringAscii]
        rw [h]
    | dbinary =>
        simp only [sbatDataTypeExtract]
        rw [h]
    | dunicode =>
        simp only [sbatDataTypeExtract, readUCS2StringAt, readUint16ArrayAt]
        refine congrArg Value.str (List.map_congr_left ?_)
        intro i hi
        have hi2 : 2 * i + 1 < size.toNat := by
          have := List.mem_range.mp hi
          rw [tdiv_two_toNat] at this
          omega
        have h1 := hpt (2 * i) (by omega)
        have h2 := hpt (2 * i + 1) (by omega)
        unfold getUint16LE
        have c1 : ((seekPos buf1.length (s1 + o1) : Nat) : Int) + 2 * (i : Int) =
            ((seekPos buf1.length (s1 + o1) : Nat) : Int) + ((2 * i : Nat) : Int) := by
          push_cast; ring
        have c2 : ((seekPos buf2.length (s2 + o2) : Nat) : Int) + 2 * (i : Int) =
            ((seekPos buf2.length (s2 + o2) : Nat) : Int) + ((2 * i : Nat) : Int) := by
          push_cast; ring
        have c1' : ((seekPos buf1.length (s1 + o1) : Nat) : Int) + 2 * (i : Int) + 1 =
            ((seekPos buf1.length (s1 + o1) : Nat) : Int) + ((2 * i + 1 : Nat) : Int) := by
          push_cast; ring
        have c2' : ((seekPos buf2.length (s2 + o2) : Nat) : Int) + 2 * (i : Int) + 1 =
            ((seekPos buf2.length (s2 + o2) : Nat) : Int) + ((2 * i + 1 : Nat) : Int) := by
          push_cast; ring
        rw [c1', c2', c1, c2, h1, h2]
  · intro d buf msg p fuel b hchain
    unfold extractDataViaSbat
    rw [hchain]
    simp
  · intro d buf msg p fuel chain hchain hlen
    unfold extractDataViaSbat
    rw [hchain]
    have h1 : chain.length ≠ 1 := by omega
    simp [h1, hlen]
  · intro d buf msg p
    cases d <;> simp only [extractDataViaBat, sbatDataTypeExtract, Int.add_zero]

/-- One-link small-block chain fixture: the small-block table is block 0,
whose first slot holds the end-of-chain sentinel. -/
def c3SingleBuf : Buffer := List.replicate 512 0 ++ [0xfe, 0xff, 0xff, 0xff]

/-- State for the one-link fixture. -/
def c3SingleMsg : MsgData := { sbatData := [0] }

/-- A 5-byte small-block field starting at small block 0. -/
def c3SingleProp : Property := ⟨0, 2, [], -1, -1, -1, 0, 5, none⟩

/-- Two-link small-block chain fixture: slot 0 points to small block 1,
slot 1 holds the end-of-chain sentinel. -/
def c3MultiBuf : Buffer := List.replicate 512 0 ++ [1, 0, 0, 0] ++ [0xfe, 0xff, 0xff, 0xff]

/-- State for the two-link fixture. -/
def c3MultiMsg : MsgData := { sbatData := [0] }

/-- A 70-byte small-block field spanning two small blocks. -/
def c3MultiProp : Property := ⟨0, 2, [], -1, -1, -1, 0, 70, none⟩

/-- C3 (witness): the decoder agreement applied to concrete fixtures — a
unicode decode of the same 4 content bytes at two different positions, a
concrete one-link chain taking the in-place path, a concrete two-link
chain taking the concatenation path, and the big-block decode equation. -/
theorem smallBlock_decode_paths_agree_witness :
    sbatDataTypeExtract .dunicode [1, 2, 3, 4] 0 0 4 =
      sbatDataTypeExtract .dunicode [9, 9, 1, 2, 3, 4, 7] 1 1 4
    ∧ extractDataViaSbat .dbinary c3SingleBuf c3SingleMsg c3SingleProp 1 =
      readDataByBlockSmall .dbinary c3SingleBuf c3SingleMsg c3SingleProp.startBlock
        c3SingleProp.sizeBlock
    ∧ extractDataViaSbat .dbinary c3MultiBuf c3MultiMsg c3MultiProp 2 =
      readChainDataByBlockSmall .dbinary c3MultiBuf c3MultiMsg c3MultiProp [0, 1]
    ∧ extractDataViaBat .dstring [] {} c3SingleProp =
      sbatDataTypeExtract .dstring [] (getBlockOffsetAt {} c3SingleProp.startBlock) 0
        c3SingleProp.sizeBlock :=
  ⟨smallBlock_decode_paths_agree.1 .dunicode [1, 2, 3, 4] [9, 9, 1, 2, 3, 4, 7] 0 0 1 1 4
    (by decide),
   smallBlock_decode_paths_agree.2.1 .dbinary c3SingleBuf c3SingleMsg c3SingleProp 1 0
    (by decide),
   smallBlock_decode_paths_agree.2.2.1 .dbinary c3MultiBuf c3MultiMsg c3MultiProp 2 [0, 1]
    (by decide) (by decide),
   smallBlock_decode_paths_agree.2.2.2 .dstring [] {} c3SingleProp⟩

/-! Claims C4–C6: the document-field store/skip rules. -/

/-- A class code with a mapped name is not the (unmapped) attachment
payload class `3701`. -/
theorem mapped_ne_attachment_data {k : JSStr} {s : String}
    (h : NAME_MAPPING k = some s) : k ≠ ATTACHMENT_DATA := by
  intro hc
  rw [hc] at h
  have : NAME_MAPPING ATTACHMENT_DATA = none := by decide
  rw [this] at h
  cases h

/-- C4: a document field that resolves to the name `body` is stored when
its resolved type is one of the string types, and is skipped entirely —
the field map is left untouched — when its resolved type is binary. -/
theorem body_binary_skipped (fuel : Nat) (buf : Buffer) (msg : MsgData)
    (p : Property) (fields fields' : FieldObj)
    (hname : NAME_MAPPING (substrUnits (jsToLowerStr (p.name.drop 12)) 0 4) = some "body")
    (hrun : fieldsDataDocumentF fuel buf msg p fields = some fields') :
    (TYPE_MAPPING (substrUnits (jsToLowerStr (p.name.drop 12)) 4 8) = some .dbinary →
      fields' = fields)
    ∧ (∀ (d : DType) (v : Value),
      TYPE_MAPPING (substrUnits (jsToLowerStr (p.name.drop 12)) 4 8) = some d →
      d ≠ .dbinary →
      getFieldValueF fuel buf msg p (some d) = some v →
      getAssoc fields'.map "body" = some v) := by
  have hne3701 := mapped_ne_attachment_data hname
  simp only [fieldsDataDocumentF] at hrun
  rw [hname] at hrun
  constructor
  · intro htype
    have hadd : isAddPropertyValue "body" (some .dbinary) = false := by decide
    cases hgfv : getFieldValueF fuel buf msg p (some DType.dbinary) with
    | none =>
        simp only [htype, hgfv] at hrun
        exact Option.noConfusion hrun
    | some fv =>
        simp only [htype, hgfv, hadd, Bool.false_eq_true, if_false, if_neg hne3701,
          Option.some.injEq] at hrun
        exact hrun.symm
  · intro d v htype hd hval
    have hadd : isAddPropertyValue "body" (some d) = true := by
      simp [isAddPropertyValue, hd]
    have hconv : applyValueConverter "body" (some d) v = v := by
      rw [applyValueConverter, if_neg (fun hc => absurd hc.2 (by decide))]
    simp only [htype, hval, hadd, if_true, hconv, if_neg hne3701,
      Option.some.injEq] at hrun
    rw [← hrun]
    show getAssoc (setField fields "body" v).map "body" = some v
    cases fields with
    | mk m a r i => exact getAssoc_setAssoc_self m "body" v

/-- Binary-typed `body` fixture (class `1000`, type `0102`); its start
block is already the end-of-chain sentinel, so the chain is empty and the
extracted value is `null`. -/
def c4PropBin : Property := ⟨0, 2, strU "__substg1.0_10000102", -1, -1, -1, -2, 5, none⟩

/-- String-typed `body` fixture (class `1000`, type `001e`). -/
def c4PropStr : Property := ⟨0, 2, strU "__substg1.0_1000001e", -1, -1, -1, -2, 5, none⟩

/-- A field map with one unrelated entry. -/
def c4Fields0 : FieldObj := setField emptyFieldObj "subject" (.str (strU "x"))

/-- Result of the binary-`body` document on `c4Fields0`. -/
def c4BinOut : FieldObj := (fieldsDataDocumentF 1 [] {} c4PropBin c4Fields0).getD emptyFieldObj

/-- Result of the string-`body` document on `c4Fields0`. -/
def c4StrOut : FieldObj := (fieldsDataDocumentF 1 [] {} c4PropStr c4Fields0).getD emptyFieldObj

/-- C4 (witness): the binary-typed `body` fixture leaves the field map
unchanged; the string-typed one stores the decoded value. -/
theorem body_binary_skipped_witness :
    c4BinOut = c4Fields0 ∧ getAssoc c4StrOut.map "body" = some Value.null :=
  ⟨(body_binary_skipped 1 [] {} c4PropBin c4Fields0 c4BinOut (by decide) rfl).1 (by decide),
   (body_binary_skipped 1 [] {} c4PropStr c4Fields0 c4StrOut (by decide) rfl).2 .dstring
     Value.null (by decide) (by decide) rfl⟩

/-- C5: a document field that resolves to the name `bodyHTML` with binary
resolved type stores the standard UTF-8 decoding of the raw payload bytes
(not the byte array), and no other field name/type combination is
converted by `applyValueConverter`. -/
theorem bodyHTML_binary_utf8 (fuel : Nat) (buf : Buffer) (msg : MsgData)
    (p : Property) (fields fields' : FieldObj) (raw : List Nat)
    (hname : NAME_MAPPING (substrUnits (jsToLowerStr (p.name.drop 12)) 0 4) =
      some "bodyHTML")
    (htype : TYPE_MAPPING (substrUnits (jsToLowerStr (p.name.drop 12)) 4 8) =
      some .dbinary)
    (hval : getFieldValueF fuel buf msg p (some .dbinary) = some (.bytes raw))
    (hrun : fieldsDataDocumentF fuel buf msg p fields = some fields') :
    getAssoc fields'.map "bodyHTML" = some (.str (convertUint8ArrayToString raw))
    ∧ ∀ (fn : String) (ftm : Option DType) (v : Value),
        ¬ (fn = "bodyHTML" ∧ ftm = some .dbinary) → applyValueConverter fn ftm v = v := by
  have hne3701 := mapped_ne_attachment_data hname
  simp only [fieldsDataDocumentF] at hrun
  rw [hname, htype, hval] at hrun
  have hadd : isAddPropertyValue "bodyHTML" (some .dbinary) = true := by decide
  have hconv : applyValueConverter "bodyHTML" (some .dbinary) (.bytes raw) =
      .str (convertUint8ArrayToString raw) := by
    rw [applyValueConverter, if_pos ⟨rfl, rfl⟩]
    rfl
  simp only [hadd, if_true, hconv, if_neg hne3701, Option.some.injEq] at hrun
  constructor
  · rw [← hrun]
    show getAssoc (setField fields "bodyHTML" _).map "bodyHTML" = _
    cases fields with
    | mk m a r i => exact getAssoc_setAssoc_self m "bodyHTML" _
  · intro fn ftm v h
    rw [applyValueConverter, if_neg (fun hc => h ⟨hc.2, hc.1⟩)]

/-- Buffer for the `bodyHTML` fixture: the payload bytes `Hi` at offset 0
of the root stream, and a small-block table whose slot 0 is end-of-chain. -/
def c5Buf : Buffer := [72, 105] ++ List.replicate 510 0 ++ [0xfe, 0xff, 0xff, 0xff]

/-- Root property of the `bodyHTML` fixture (its start block `-1` puts the
small-block container at physical offset 0). -/
def c5Root : Property := ⟨0, 5, [], -1, -1, -1, -1, 0, none⟩

/-- State for the `bodyHTML` fixture. -/
def c5Msg : MsgData := { sbatData := [0], propertyData := [some c5Root] }

/-- Binary `bodyHTML` document of 2 bytes at small block 0. -/
def c5Prop : Property := ⟨1, 2, strU "__substg1.0_10130102", -1, -1, -1, 0, 2, none⟩

/-- Result of the `bodyHTML` document on an empty record. -/
def c5Out : FieldObj := (fieldsDataDocumentF 1 c5Buf c5Msg c5Prop emptyFieldObj).getD emptyFieldObj

/-- C5 (witness): the 2-byte binary `bodyHTML` payload `Hi` is stored as
the decoded text `Hi`, and an unrelated field/type pair passes through
`applyValueConverter` unchanged. -/
theorem bodyHTML_binary_utf8_witness :
    getAssoc c5Out.map "bodyHTML" = some (.str [72, 105])
    ∧ applyValueConverter "subject" (some .dbinary) (.num 3) = .num 3 :=
  ⟨(bodyHTML_binary_utf8 1 c5Buf c5Msg c5Prop emptyFieldObj c5Out [72, 105]
      (by decide) (by decide) (by decide) rfl).1,
   (bodyHTML_binary_utf8 1 c5Buf c5Msg c5Prop emptyFieldObj c5Out [72, 105]
      (by decide) (by decide) (by decide) rfl).2 "subject" (some .dbinary) (.num 3)
      (by simp)⟩

/-- C6: a document property of the attachment-payload class `3701` only
records `dataId` (the property's flat index) and `contentLength` (its
declared size) on the current record — nothing else is stored, so the
payload is not materialized — and `getAttachment` resolves a record's
`dataId` back to the property array and returns the value decoded by
`getFieldValue` together with the record's `fileName`. -/
theorem attachment_payload_recorded :
    (∀ (fuel : Nat) (buf : Buffer) (msg : MsgData) (p : Property)
        (fields fields' : FieldObj),
      substrUnits (jsToLowerStr (p.name.drop 12)) 0 4 = ATTACHMENT_DATA →
      fieldsDataDocumentF fuel buf msg p fields = some fields' →
      getAssoc fields'.map "dataId" = some (.num p.index)
      ∧ getAssoc fields'.map "contentLength" = some (.num p.sizeBlock)
      ∧ fields' = setField (setField fields "dataId" (.num p.index)) "contentLength"
          (.num p.sizeBlock))
    ∧ (∀ (fuel : Nat) (r : MSGReaderState) (fd : MsgData) (attach : Nat)
        (rec : FieldObj) (d : Int) (p : Property) (v : Value),
      r.fileData = some fd →
      (fd.fieldsData.attachments.bind fun l => l.get? attach) = some rec →
      getAssoc rec.map "dataId" = some (.num d) →
      0 ≤ d →
      fd.propertyData.getD d.toNat none = some p →
      getFieldValueF fuel r.buf fd p (TYPE_MAPPING (getFieldType p)) = some v →
      getAttachmentF fuel r attach = .ok (getAssoc rec.map "fileName") v) := by
  constructor
  · intro fuel buf msg p fields fields' hclass hrun
    have hnm : NAME_MAPPING ATTACHMENT_DATA = none := by decide
    simp only [fieldsDataDocumentF] at hrun
    simp only [hclass, hnm, if_pos, Option.some.injEq] at hrun
    subst hrun
    refine ⟨?_, ?_, rfl⟩
    · show getAssoc (setField (setField fields "dataId" _) "contentLength" _).map "dataId" = _
      cases fields with
      | mk m a r i =>
          show getAssoc (setAssoc (setAssoc m "dataId" _) "contentLength" _) "dataId" = _
          rw [getAssoc_setAssoc_ne _ _ (by decide)]
          exact getAssoc_setAssoc_self _ _ _
    · show getAssoc (setField (setField fields "dataId" _) "contentLength" _).map
        "contentLength" = _
      cases fields with
      | mk m a r i => exact getAssoc_setAssoc_self _ _ _
  · intro fuel r fd attach rec d p v hfd hrec hdid hd hprop hval
    simp only [getAttachmentF, hfd, hrec, hdid, if_pos hd, hprop, hval]

/-- Buffer for the attachment fixture: a 10-byte payload at the start of
block 0, and a small-block table (block 1) whose slot 0 is end-of-chain. -/
def c6Buf : Buffer :=
  List.replicate 512 0 ++ [1, 2, 3, 4, 5, 6, 7, 8, 9, 10] ++ List.replicate 502 0
    ++ [0xfe, 0xff, 0xff, 0xff]

/-- Root property of the attachment fixture (small-block container at
block 0, physical offset 512). -/
def c6Root : Property := ⟨0, 5, [], -1, -1, -1, 0, 0, none⟩

/-- The binary attachment-payload document (class `3701`, type `0102`,
flat index 1, 10 declared bytes, small block 0). -/
def c6Prop : Property := ⟨1, 2, strU "__substg1.0_37010102", -1, -1, -1, 0, 10, none⟩

/-- The attachment record produced by the walk: `dataId` 1 and a name. -/
def c6Rec : FieldObj :=
  .mk [("dataId", .num 1), ("fileName", .str (strU "a.bin"))] none none false

/-- Field data holding the one attachment record. -/
def c6Fields : FieldObj := .mk [] (some [c6Rec]) (some []) false

/-- Parse state of the attachment fixture. -/
def c6Msg : MsgData :=
  { sbatData := [1], propertyData := [some c6Root, some c6Prop], fieldsData := c6Fields }

/-- A reader that has successfully parsed the attachment fixture. -/
def c6Reader : MSGReaderState := ⟨c6Buf, some c6Msg⟩

/-- Result of the payload document on an empty record. -/
def c6DocOut : FieldObj :=
  (fieldsDataDocumentF 1 c6Buf c6Msg c6Prop emptyFieldObj).getD emptyFieldObj

/-- C6 (witness): the class-`3701` document of 10 declared bytes records
`dataId` 1 and `contentLength` 10, and `getAttachment` on the record
returns exactly those 10 payload bytes. -/
theorem attachment_payload_recorded_witness :
    getAssoc c6DocOut.map "dataId" = some (.num 1)
    ∧ getAssoc c6DocOut.map "contentLength" = some (.num 10)
    ∧ getAttachmentF 1 c6Reader 0 =
      .ok (some (.str (strU "a.bin"))) (.bytes [1, 2, 3, 4, 5, 6, 7, 8, 9, 10]) :=
  ⟨(attachment_payload_recorded.1 1 c6Buf c6Msg c6Prop emptyFieldObj c6DocOut
      (by decide) rfl).1,
   (attachment_payload_recorded.1 1 c6Buf c6Msg c6Prop emptyFieldObj c6DocOut
      (by decide) rfl).2.1,
   attachment_payload_recorded.2 1 c6Reader c6Msg 0 c6Rec 1 c6Prop
     (.bytes [1, 2, 3, 4, 5, 6, 7, 8, 9, 10]) rfl rfl rfl (by decide) rfl (by decide)⟩

/-! Claim C8: recovery of overflow BAT entries from the XBAT chain. -/

/-- Spec-side description of one XBAT block's contribution: of the first
`k` entries, those before the first unused/end-of-chain sentinel. -/
def specXbatChunk (blk : List Int) (k : Nat) : List Int :=
  (blk.take k).takeWhile fun e => !(e == UNUSED_BLOCK || e == END_OF_CHAIN)

/-- Spec-side description of the XBAT walk: exactly `count` blocks, each
contributing at most `min(remaining, xBlockLength)` entries and pointing
to the next XBAT block through its last slot. -/
def specXbatWalk (buf : Buffer) (msg : MsgData) : Nat → Int → Int → List Int
  | 0, _, _ => []
  | Nat.succ n, at0, remaining =>
      let blk := getBlockAt buf msg at0
      let toProc := min remaining (msg.xBlockLength : Int)
      specXbatChunk blk toProc.toNat
        ++ specXbatWalk buf msg n ((blk.getLast?).getD 0) (remaining - toProc)

/-- A block read always yields `bigBlockLength` slots. -/
theorem getBlockAt_length (buf : Buffer) (msg : MsgData) (off : Int) :
    (getBlockAt buf msg off).length = msg.bigBlockLength := by
  rw [getBlockAt, readInt32ArrayAt, List.length_map, List.length_range]

/-- The source's indexed entry loop agrees with the take/takeWhile
description, for in-range scans. -/
theorem xbatEntries_eq_chunk (blk : List Int) :
    ∀ (k j : Nat), j + k ≤ blk.length →
      xbatEntriesLoop blk k j = specXbatChunk (blk.drop j) k := by
  intro k
  induction k with
  | zero =>
      intro j h
      simp [xbatEntriesLoop, specXbatChunk]
  | succ n ih =>
      intro j h
      have hj : j < blk.length := by omega
      rw [xbatEntriesLoop, specXbatChunk, List.drop_eq_getElem_cons hj,
        List.take_succ_cons, List.takeWhile_cons]
      have hgd : blk.getD j 0 = blk[j] := List.getD_eq_getElem blk 0 hj
      by_cases hs : blk[j] = UNUSED_BLOCK ∨ blk[j] = END_OF_CHAIN
      · rw [hgd, if_pos hs]
        have : (!(blk[j] == UNUSED_BLOCK || blk[j] == END_OF_CHAIN)) = false := by
          rcases hs with hs | hs <;> simp [hs]
        rw [this]
        simp
      · rw [hgd, if_neg hs]
        have : (!(blk[j] == UNUSED_BLOCK || blk[j] == END_OF_CHAIN)) = true := by
          push_neg at hs
          simp [hs.1, hs.2]
        rw [this]
        simp only [if_true]
        have := ih (j + 1) (by omega)
        rw [this, specXbatChunk]

/-- The accumulator-threaded loop of the source equals append of the
spec-side walk. -/
theorem xbatLoop_eq_spec (buf : Buffer) (msg : MsgData)
    (hx : msg.xBlockLength = msg.bigBlockLength - 1)
    (hpos : 0 < msg.bigBlockLength) :
    ∀ (n : Nat), ∀ (at0 remaining : Int) (bat : List Int),
      xbatLoop buf msg n at0 remaining bat =
        bat ++ specXbatWalk buf msg n at0 remaining := by
  intro n
  induction n with
  | zero =>
      intro at0 remaining bat
      simp [xbatLoop, specXbatWalk]
  | succ m ih =>
      intro at0 remaining bat
      rw [xbatLoop, specXbatWalk]
      have hblk : (getBlockAt buf msg at0).length = msg.bigBlockLength :=
        getBlockAt_length buf msg at0
      have hbound : 0 + (min remaining (msg.xBlockLength : Int)).toNat ≤
          (getBlockAt buf msg at0).length := by
        have h1 := min_le_right remaining ((msg.xBlockLength : Nat) : Int)
        rw [hblk]
        omega
      have hentries := xbatEntries_eq_chunk (getBlockAt buf msg at0)
        (min remaining (msg.xBlockLength : Int)).toNat 0 hbound
      rw [List.drop_zero] at hentries
      have hnext : (getBlockAt buf msg at0).getD msg.xBlockLength 0 =
          ((getBlockAt buf msg at0).getLast?).getD 0 := by
        rw [List.getLast?_eq_getElem?, List.getD_eq_getElem?_getD]
        congr 2
        rw [hblk]
        omega
      rw [hentries, hnext, ih, List.append_assoc]

/-- C8: when `batCount` exceeds the in-header capacity, `xbatData` extends
`batData` by exactly the spec-side walk — `xbatCount` XBAT blocks are
traversed, the next-block pointer is the block's last (`xBlockLength`)
slot, each block contributes at most `min(remaining, xBlockLength)`
entries, and a block's scan stops early at an unused or end-of-chain
sentinel, whose values never enter `batData`. -/
theorem xbat_walk_matches_spec (buf : Buffer) (msg : MsgData)
    (hx : msg.xBlockLength = msg.bigBlockLength - 1)
    (hpos : 0 < msg.bigBlockLength)
    (hover : batCountInHeader msg < msg.batCount) :
    (xbatData buf msg).batData =
      msg.batData ++ specXbatWalk buf msg msg.xbatCount.toNat msg.xbatStart
        (msg.batCount - batCountInHeader msg)
    ∧ (∀ (blk : List Int) (k : Nat), (specXbatChunk blk k).length ≤ k)
    ∧ (∀ (blk : List Int) (k : Nat) (e : Int),
        e ∈ specXbatChunk blk k → e ≠ UNUSED_BLOCK ∧ e ≠ END_OF_CHAIN) := by
  refine ⟨?_, ?_, ?_⟩
  · show xbatLoop buf msg msg.xbatCount.toNat msg.xbatStart
      (msg.batCount - batCountInHeader msg) msg.batData = _
    exact xbatLoop_eq_spec buf msg hx hpos _ _ _ _
  · intro blk k
    have hw : ∀ (l : List Int) (p : Int → Bool), (l.takeWhile p).length ≤ l.length := by
      intro l p
      induction l with
      | nil => simp
      | cons a t ih =>
          rw [List.takeWhile_cons]
          split
          · simpa using ih
          · simp
    exact le_trans (hw _ _) (List.length_take_le _ _)
  · intro blk k e he
    have h := List.mem_takeWhile_imp he
    simp at h
    exact h

/-- A state whose `batCount` (110) exceeds the 109 in-header entries, with
one XBAT block. -/
def c8Msg : MsgData := { batCount := 110, xbatStart := 0, xbatCount := 1 }

/-- C8 (witness): the walk equation on the overflow fixture, a chunk-length
bound instance, and a sentinel-freedom instance. -/
theorem xbat_walk_matches_spec_witness :
    (xbatData [] c8Msg).batData =
      c8Msg.batData ++ specXbatWalk [] c8Msg c8Msg.xbatCount.toNat c8Msg.xbatStart
        (c8Msg.batCount - batCountInHeader c8Msg)
    ∧ (specXbatChunk [7, -1, 3] 3).length ≤ 3
    ∧ ((7 : Int) ≠ UNUSED_BLOCK ∧ (7 : Int) ≠ END_OF_CHAIN) :=
  ⟨(xbat_walk_matches_spec [] c8Msg rfl (by decide) (by decide)).1,
   (xbat_walk_matches_spec [] c8Msg rfl (by decide) (by decide)).2.1 [7, -1, 3] 3,
   (xbat_walk_matches_spec [] c8Msg rfl (by decide) (by decide)).2.2 [7, -1, 3] 3 7
     (by decide)⟩

/-! Claim C10: `getAttachment` presupposes a successful parse. -/

/-- C10: a reader without a stored parse result — never parsed, or parsed
with a signature mismatch (which stores nothing) — makes every
`getAttachment` call fail by dereferencing the absent result; once the
parse result is present, that failure branch is unreachable for any
argument, in particular for a valid attachment index. -/
theorem getAttachment_requires_parse :
    (∀ (fuel : Nat) (buf : Buffer) (a : Nat),
      getAttachmentF fuel ⟨buf, none⟩ a = .noParse)
    ∧ (∀ (fuel fuel2 : Nat) (buf : Buffer) (st' : MSGReaderState) (e : String),
      getFileDataF fuel ⟨buf, none⟩ = some (st', .error e) →
      st'.fileData = none ∧ ∀ a, getAttachmentF fuel2 st' a = .noParse)
    ∧ (∀ (fuel : Nat) (st : MSGReaderState) (fd : MsgData) (a : Nat),
      st.fileData = some fd →
      a < (fd.fieldsData.attachments.getD []).length →
      getAttachmentF fuel st a ≠ .noParse) := by
  refine ⟨?_, ?_, ?_⟩
  · intro fuel buf a
    rfl
  · intro fuel fuel2 buf st' e h
    simp only [getFileDataF] at h
    split at h
    · injection h with h1
      injection h1 with ha hb
      constructor
      · rw [← ha]
      · intro a
        rw [← ha]
        rfl
    · cases hp : parseMsgDataF fuel buf with
      | none => rw [hp] at h; cases h
      | some d =>
          rw [hp] at h
          injection h with h1
          injection h1 with ha hb
          cases hb
  · intro fuel st fd a hfd ha hc
    simp only [getAttachmentF, hfd] at hc
    repeat' split at hc
    all_goals exact AttachResult.noConfusion hc

/-- C10 (witness): the never-parsed reader and the signature-rejected
reader fail with the absent parse result; the successfully parsed
attachment fixture does not. -/
theorem getAttachment_requires_parse_witness :
    getAttachmentF 0 ⟨List.replicate 8 0, none⟩ 0 = .noParse
    ∧ MSGReaderState.fileData ⟨List.replicate 8 0, none⟩ = none
    ∧ getAttachmentF 1 c6Reader 0 ≠ .noParse :=
  ⟨getAttachment_requires_parse.1 0 (List.replicate 8 0) 0,
   (getAttachment_requires_parse.2.1 0 0 (List.replicate 8 0)
     ⟨List.replicate 8 0, none⟩ "Unsupported file type!" rfl).1,
   getAttachment_requires_parse.2.2 1 c6Reader c6Msg 0 rfl (by decide)⟩

end MsgReader
